import Mathlib

/-!
Verification development for the neuroimg_pipeline repository.

We give a shallow embedding, in Lean, of the filename-semantics engine of the
repository: the BIDS filename parser, the metadata resolver, the semantic
classifier and the destination-name synthesizer of src/bids2hcp/convert.py,
and the selection/copy planner of src/nifti2bids/nifti2bids.py.

Python strings are modelled as Lean String (processed through List Char);
Python dict-with-optional-values records are modelled as structures of
Option String; Python exceptions are modelled with Except; filesystem side
effects are modelled as explicit action traces.  Machine-level concerns
(actual file contents, OS errors) are out of scope, as in the spec.
-/

namespace NeuroPipeline

instance {ε α : Type} [DecidableEq ε] [DecidableEq α] : DecidableEq (Except ε α) := fun a b =>
  match a, b with
  | .ok x, .ok y =>
      match decEq x y with
      | isTrue h => isTrue (by rw [h])
      | isFalse h => isFalse (by intro hh; cases hh; exact h rfl)
  | .error x, .error y =>
      match decEq x y with
      | isTrue h => isTrue (by rw [h])
      | isFalse h => isFalse (by intro hh; cases hh; exact h rfl)
  | .ok _, .error _ => isFalse (by intro hh; cases hh)
  | .error _, .ok _ => isFalse (by intro hh; cases hh)

/-! ## Generic string helpers (Python string semantics) -/

/-- Boolean test: `p` is a prefix of `l` (character lists). -/
def hasPref : List Char → List Char → Bool
  | [], _ => true
  | _ :: _, [] => false
  | p :: ps, c :: cs => p = c && hasPref ps cs

/-- Strip the literal prefix `p` from `l`, returning the remainder. -/
def stripPref : List Char → List Char → Option (List Char)
  | [], l => some l
  | _ :: _, [] => none
  | p :: ps, c :: cs => if p = c then stripPref ps cs else none

/-- Boolean substring containment on character lists
(Python `needle in hay` for strings). -/
def containsTok (hay needle : List Char) : Bool :=
  match hay with
  | [] => hasPref needle []
  | _ :: cs => hasPref needle hay || containsTok cs needle

/-- Python `needle in hay` for strings. -/
def strContainsSub (hay needle : String) : Bool :=
  containsTok hay.data needle.data

/-- Python `s.endswith(suf)`. -/
def strEndsWith (s suf : String) : Bool :=
  hasPref suf.data.reverse s.data.reverse

/-- Python `s.lower()` (ASCII, as used by the repository). -/
def strLower (s : String) : String := (s.data.map Char.toLower).asString

/-- Python `s.upper()` (ASCII, as used by the repository). -/
def strUpper (s : String) : String := (s.data.map Char.toUpper).asString

/-- `os.path.basename` on a POSIX path: the part after the last slash. -/
def pyBasename (l : List Char) : List Char :=
  (l.reverse.takeWhile (· ≠ '/')).reverse

/-- Python `s.split(".")[0]`: everything before the first dot
(the whole string when there is no dot). -/
def firstDotComponent (s : String) : String :=
  (s.data.takeWhile (· ≠ '.')).asString

/-- Python `s.split(".")[-1]`: everything after the last dot
(the whole string when there is no dot). -/
def lastDotComponent (s : String) : String :=
  ((s.data.reverse.takeWhile (· ≠ '.')).reverse).asString

/-- Value of a decimal digit list. -/
def natOfDigits (ds : List Char) : Nat :=
  ds.foldl (fun a c => a * 10 + (c.toNat - 48)) 0

/-- Python `int(s)` restricted to the shapes arising in this repository:
an optional sign followed by a nonempty run of decimal digits; anything
else raises ValueError, modelled as `none`. -/
def pyInt (s : String) : Option Int :=
  match s.data with
  | [] => none
  | '-' :: ds => if ds ≠ [] && ds.all Char.isDigit then some (-(natOfDigits ds : Int)) else none
  | '+' :: ds => if ds ≠ [] && ds.all Char.isDigit then some ((natOfDigits ds : Int)) else none
  | ds => if ds.all Char.isDigit then some ((natOfDigits ds : Int)) else none

/-- First association-list lookup (Python dict read).  Keys compared by `=`. -/
def dictGet? {α β : Type} [DecidableEq α] (l : List (α × β)) (k : α) : Option β :=
  match l with
  | [] => none
  | p :: ps => if p.1 = k then some p.2 else dictGet? ps k

/-- Association-list write with Python dict semantics: overwrite in place
when the key exists (keeping its position), else append at the end. -/
def dictSet {α β : Type} [DecidableEq α] (l : List (α × β)) (k : α) (v : β) : List (α × β) :=
  if (l.filter (fun p => p.1 = k)).isEmpty then l ++ [(k, v)]
  else l.map (fun p => if p.1 = k then (k, v) else p)

/-- Lookup in a string-keyed table with a default (Python `d.get(k, default)`
for a dict whose stored values are plain strings). -/
def lookupD (m : List (String × String)) (k d : String) : String :=
  match dictGet? m k with
  | some v => v
  | none => d

/-- Python f-string rendering of a value that may be None:
`f"{x}"` prints `None` for None. -/
def pyOptStr : Option String → String
  | some s => s
  | none => "None"

/-! ## src/bids2hcp/convert.py : get_bids_info_from_filename

The Python function matches the anchored regex

  sub-([^_]+)_ses-([^_]+)(_task-([^_]+))?(_acq-([^_]+))?(_dir-([^_]+))?
  (_run-([^_]+))?(_echo-([^_]+))?(_mod-([^_]+))?
  (_T1w|_T2w|_dwi|_epi|_bold|_sbref|_phase|_magnitude)(\.[^\.]+(\.[^\.]+)?)$

with `re.search` against `os.path.basename(filename)`.  For this pattern the
backtracking search is deterministic: every `[^_]+` value group is followed
only by constructs that start with an underscore, so each value is exactly
the maximal run of non-underscore characters, each optional group either
consumes its `_key-` marker or is skipped for good, and the extension group
is the final one or two dot components.  `re.search` tries start positions
left to right; we model that by trying a full match at every suffix. -/

/-- Parsed record: the `match.groupdict()` of the regex above, plus the
`modality` key that the function inserts afterwards.  Named groups that did
not participate are `none` (Python `None`). -/
structure BidsInfo where
  sub : Option String := none
  ses : Option String := none
  task : Option String := none
  acq : Option String := none
  dir : Option String := none
  run : Option String := none
  echo : Option String := none
  mod : Option String := none
  suffix : Option String := none
  extension : Option String := none
  modality : Option String := none
deriving Repr, DecidableEq

/-- The suffix alternation of the regex, in alternation order. -/
def suffixToks : List (List Char) :=
  ["_T1w", "_T2w", "_dwi", "_epi", "_bold", "_sbref", "_phase", "_magnitude"].map String.data

/-- One optional `(?:_key-([^_]+))?` group: if the marker is present and is
followed by a nonempty run of non-underscore characters, consume it;
otherwise leave the input unchanged (the group is skipped). -/
def matchOpt (key : List Char) (l : List Char) : Option String × List Char :=
  match stripPref key l with
  | some rest =>
      let v := rest.takeWhile (· ≠ '_')
      if v.isEmpty then (none, l) else (some v.asString, rest.dropWhile (· ≠ '_'))
  | none => (none, l)

/-- First suffix alternative that matches at the head of `l`. -/
def firstTok : List (List Char) → List Char → Option (List Char × List Char)
  | [], _ => none
  | t :: ts, l =>
      match stripPref t l with
      | some rest => some (t, rest)
      | none => firstTok ts l

/-- The `(\.[^\.]+(\.[^\.]+)?)$` extension group: one or two final dot
components, anchored at the end of the string. -/
def matchExt (l : List Char) : Option (List Char) :=
  match l with
  | '.' :: rest =>
      let a := rest.takeWhile (· ≠ '.')
      let r := rest.dropWhile (· ≠ '.')
      if a.isEmpty then none
      else
        match r with
        | [] => some ('.' :: a)
        | '.' :: r2 =>
            let b := r2.takeWhile (· ≠ '.')
            let r3 := r2.dropWhile (· ≠ '.')
            if b.isEmpty then none
            else if r3.isEmpty then some ('.' :: a ++ '.' :: b) else none
        | _ => none
  | _ => none

/-- Full match of the regex at the start of `l`, consuming all of `l`. -/
def matchAt (l : List Char) : Option BidsInfo :=
  match stripPref "sub-".data l with
  | none => none
  | some r0 =>
    let sub := r0.takeWhile (· ≠ '_')
    let r1 := r0.dropWhile (· ≠ '_')
    if sub.isEmpty then none
    else
      match stripPref "_ses-".data r1 with
      | none => none
      | some r2 =>
        let ses := r2.takeWhile (· ≠ '_')
        let r3 := r2.dropWhile (· ≠ '_')
        if ses.isEmpty then none
        else
          let t4 := matchOpt "_task-".data r3
          let a5 := matchOpt "_acq-".data t4.2
          let d6 := matchOpt "_dir-".data a5.2
          let r7 := matchOpt "_run-".data d6.2
          let e8 := matchOpt "_echo-".data r7.2
          let m9 := matchOpt "_mod-".data e8.2
          match firstTok suffixToks m9.2 with
          | none => none
          | some tr =>
            match matchExt tr.2 with
            | none => none
            | some ext =>
              some { sub := some sub.asString, ses := some ses.asString,
                     task := t4.1, acq := a5.1, dir := d6.1, run := r7.1,
                     echo := e8.1, mod := m9.1,
                     suffix := some tr.1.asString, extension := some ext.asString }

/-- `re.search`: try a full match at every start position, left to right. -/
def searchSub : List Char → Option BidsInfo
  | [] => none
  | c :: cs =>
      match matchAt (c :: cs) with
      | some i => some i
      | none => searchSub cs

/-- suffix → modality table of `get_bids_info_from_filename`. -/
def suffixToMod : List (String × String) :=
  [("_bold", "bold"), ("_dwi", "dwi"), ("_epi", "epi"), ("_sbref", "sbref"),
   ("_T1w", "T1w"), ("_T2w", "T2w"), ("_phase", "phase"), ("_magnitude", "magnitude")]

/-- `get_bids_info_from_filename` (src/bids2hcp/convert.py lines 50-76).
On a successful regex match the function always fills `info['modality']`
from the suffix: the groupdict has no `modality` key, so
`not info.get('modality')` is always true. -/
def get_bids_info_from_filename (filename : String) : Option BidsInfo :=
  match searchSub (pyBasename filename.data) with
  | none => none
  | some info =>
    match info.suffix with
    | some sfx => some { info with modality := some (lookupD suffixToMod sfx (sfx.drop 1)) }
    | none => some info

/-! ## src/bids2hcp/convert.py : get_phase_encoding_info -/

/-- A JSON value as used for `IntendedFor`: either a string or a list of
strings (the two shapes the code handles). -/
inductive PyJsonVal where
  | str (s : String)
  | list (xs : List String)
deriving Repr, DecidableEq

/-- Sidecar JSON content, restricted to the two keys the code reads.
`none` models an absent key. -/
structure Sidecar where
  phaseEncodingDirection : Option String := none
  intendedFor : Option PyJsonVal := none
deriving Repr, DecidableEq

/-- The fixed BIDS→HCP phase-encoding table of `get_phase_encoding_info`.
Note the keys are lowercase in the source. -/
def peMap : List (String × String) :=
  [("i", "LR"), ("i-", "RL"), ("j", "AP"), ("j-", "PA")]

/-- `re.search(r'_key-([A-Z]{2})', s)`: leftmost occurrence of the literal
marker followed by two uppercase ASCII letters; returns those two letters. -/
def findDirHint (key : List Char) : List Char → Option String
  | [] => none
  | c :: cs =>
      match stripPref key (c :: cs) with
      | some (a :: b :: _) =>
          if ('A' ≤ a && a ≤ 'Z') && ('A' ≤ b && b ≤ 'Z') then some ⟨[a, b]⟩
          else findDirHint key cs
      | _ => findDirHint key cs

/-- The filename-hint fallback of `get_phase_encoding_info`
(`_dir-` first, then `_acq-`, else "UNKNOWN"). -/
def peFilenameFallback (filename : String) : String :=
  match findDirHint "_dir-".data filename.data with
  | some d => d
  | none =>
      match findDirHint "_acq-".data filename.data with
      | some d => d
      | none => "UNKNOWN"

/-- `get_phase_encoding_info` (src/bids2hcp/convert.py lines 20-48).
When the sidecar has a truthy `PhaseEncodingDirection`, the code returns
`pe_map.get(pe_dir_bids.upper(), pe_dir_bids)`: the looked-up key is
upper-cased while the table keys are lowercase. -/
def get_phase_encoding_info (jd : Sidecar) (filename : String) : String :=
  match jd.phaseEncodingDirection with
  | some pe => if pe ≠ "" then lookupD peMap (strUpper pe) pe else peFilenameFallback filename
  | none => peFilenameFallback filename

/-! ## src/bids2hcp/convert.py : determine_hcp_modality_and_task -/

/-- Task names classified as resting state. -/
def restTasks : List String := ["rest", "rest1", "rest2"]

/-- BIDS task → HCP task table. -/
def hcpTaskMap : List (String × String) :=
  [("emotion", "EMOTION"), ("gambling", "GAMBLING"), ("language", "LANGUAGE"),
   ("relational", "RELATIONAL"), ("motor", "MOTOR"), ("social", "SOCIAL"),
   ("wm", "WM"), ("rest", "REST")]

/-- `determine_hcp_modality_and_task` (src/bids2hcp/convert.py lines 78-134),
returning `(hcp_modality, hcp_task_or_mod)`.  The groupdict produced by the
parser always carries the keys `task` and `run`, so `bids_info.get('task',
'UNKNOWN')` and `bids_info.get('run', '1')` return the stored value even when
it is Python `None`; an f-string renders that `None` as the text "None", and
calling `.lower()` / `.upper()` on it raises AttributeError (modelled with
`Except.error`).  Likewise `'x'.lower() in [...]` is the rest test and the
`_epi` branch calls `.lower()` on whatever `IntendedFor` reduced to, which
raises when it is still a list (the empty-list case). -/
def determine_hcp_modality_and_task (info : BidsInfo) (jd : Sidecar) :
    Except String (String × String) :=
  let sfx := info.suffix.getD ""
  if sfx = "_T1w" ∨ sfx = "_T2w" then
    .ok ("anat", sfx.drop 1)
  else if sfx = "_dwi" then
    .ok ("dwi", "Diffusion")
  else if sfx = "_bold" ∨ sfx = "_sbref" then
    match info.task with
    | some t =>
        if t ≠ "" ∧ strLower t ∈ restTasks then
          .ok ("func", "rfMRI_REST" ++ pyOptStr info.run)
        else
          .ok ("func", "tfMRI_" ++ lookupD hcpTaskMap (strLower t) (strUpper t))
    | none =>
        -- `if task and ...` is false for None, and the else branch then
        -- evaluates task.lower(): AttributeError on NoneType.
        .error "AttributeError: NoneType has no attribute lower"
  else if sfx = "_epi" then
    let iv0 : PyJsonVal := jd.intendedFor.getD (.str "")
    let iv : PyJsonVal :=
      match iv0 with
      | .list (x :: _) => .str x
      | v => v
    match iv with
    | .str s =>
        if strContainsSub (strLower s) "dwi" ∨ strContainsSub (strLower s) "diffusion" then
          .ok ("dwi", "Diffusion")
        else
          .ok ("fmap", "SpinEchoFieldMap")
    | .list _ =>
        -- intended_for is still a (necessarily empty) list here, and
        -- intended_for.lower() raises AttributeError.
        .error "AttributeError: list has no attribute lower"
  else if sfx = "_magnitude" ∨ sfx = "_phase" then
    let hasT1w : Bool :=
      match jd.intendedFor.getD (.str "") with
      | .str s => strContainsSub s "T1w"
      | .list xs => xs.contains "T1w"  -- Python `in` on a list is membership
    .ok ("fmap", (if hasT1w then "T1w_M" else "T2w_M") ++ sfx.drop 1)
  else
    .ok ("unknown", info.modality.getD "UNKNOWN")

/-! ## src/bids2hcp/convert.py : per-file logic of bids_to_hcp
(lines 161-265: scan name and destination filename). -/

/-- `hcp_filename_parts.insert(-1, x)`: insert before the last element. -/
def insertBeforeLast (l : List String) (x : String) : List String :=
  match l.reverse with
  | [] => [x]
  | a :: rest => (a :: x :: rest).reverse

/-- Result of the per-file computation inside `bids_to_hcp`. -/
structure HcpFileResult where
  hcpModality : String
  scanName : String
  hcpFilename : String
deriving Repr, DecidableEq

/-- The per-file body of `bids_to_hcp` (src/bids2hcp/convert.py lines
161-262): file-type filter, parse, classification, phase-encoding
resolution, scan-name and destination-filename construction.  `.ok none`
models the per-file skip paths (non-data file, unparseable name); errors
from `determine_hcp_modality_and_task` propagate (they abort the run).
The extension handling appends `bids_file_path.split('.')[-1]` and, for
`.nii.gz`, inserts "nii" before it; the parts are then joined with "_". -/
def bids_to_hcp_file (file : String) (jd : Sidecar) : Except String (Option HcpFileResult) :=
  if ¬(strEndsWith file ".nii" ∨ strEndsWith file ".nii.gz" ∨
       strEndsWith file ".bval" ∨ strEndsWith file ".bvec" ∨ strEndsWith file ".json") then
    .ok none
  else
    match get_bids_info_from_filename file with
    | none => .ok none
    | some info =>
      match determine_hcp_modality_and_task info jd with
      | .error e => .error e
      | .ok (hcpMod, taskOrMod) =>
        let peDir := get_phase_encoding_info jd file
        let scanName := if hcpMod = "anat" then taskOrMod else taskOrMod ++ "_" ++ peDir
        let parts : List String :=
          if hcpMod = "func" then
            let runPart :=
              if strContainsSub taskOrMod "REST" then "_" ++ pyOptStr info.run else ""
            [taskOrMod ++ runPart ++ "_" ++ peDir]
          else if hcpMod = "dwi" then [scanName]
          else if hcpMod = "fmap" then [scanName]
          else if hcpMod = "anat" then
            let runPart :=
              match info.run with
              | some r => if r = "" then "" else "_run-" ++ r
              | none => ""
            [taskOrMod ++ runPart]
          else [file]
        let parts := parts ++ [lastDotComponent file]
        let parts := if strEndsWith file ".nii.gz" then insertBeforeLast parts "nii" else parts
        let joined := String.intercalate "_" (parts.filter (fun p => p ≠ ""))
        let hcpFilename :=
          if strEndsWith file ".bval" ∨ strEndsWith file ".bvec" then
            taskOrMod ++ "." ++ lastDotComponent file
          else joined
        .ok (some ⟨hcpMod, scanName, hcpFilename⟩)

/-! ## src/bids2hcp/convert.py : bids_to_hcp_example (lines 267-408)

The walker state is the per-subject anat counter dict `anat_counts`;
everything else is per-file.  We model the stream of candidate files the
walker feeds to the per-file body: each item carries the directory path,
the subject and session ids recovered from that path, the file name, and
the associated sidecar (existence flag plus decoded content; a malformed
sidecar decodes to the empty content, as in the `except JSONDecodeError`
handler).  Filesystem effects are recorded as actions. -/

/-- A filesystem effect of the conversion run. -/
inductive FsAction where
  | mkdirp (path : String)
  | copyFile (src dst : String)
  | report (msg : String)
deriving Repr, DecidableEq

/-- One candidate file delivered by the directory walker. -/
structure ExItem where
  dirPath : String
  subjectId : String
  sessionId : String
  fileName : String
  sidecarExists : Bool := false
  sidecar : Sidecar := {}
deriving Repr, DecidableEq

/-- `anat_counts`: per-subject, per-modality counters. -/
def Counters := String → String → Nat

/-- All counters start at zero (`{'T1w': 0, 'T2w': 0}` per subject). -/
def initCounters : Counters := fun _ _ => 0

/-- Increment one counter. -/
def bumpCount (c : Counters) (s m : String) : Counters :=
  fun s' m' => if s' = s then (if m' = m then c s m + 1 else c s' m') else c s' m'

/-- Python `s.replace(pat, rep)` for nonempty `pat`: replace all
non-overlapping occurrences, scanning left to right. -/
def replaceAux (pat rep : List Char) (l : List Char) : List Char :=
  match l with
  | [] => []
  | c :: cs =>
      if hasPref pat (c :: cs) ∧ pat ≠ [] then
        rep ++ replaceAux pat rep (cs.drop (pat.length - 1))
      else
        c :: replaceAux pat rep cs
termination_by l.length
decreasing_by
  · simp only [List.length_cons]
    have := List.length_drop (pat.length - 1) cs
    omega
  · simp

/-- Python `s.replace(pat, rep)` (as used: `pat` is never empty). -/
def pyReplace (s pat rep : String) : String :=
  (replaceAux pat.data rep.data s.data).asString

/-- `src_path.replace('.nii.gz', '.json').replace('.nii', '.json')`. -/
def jsonSrcOf (srcPath : String) : String :=
  pyReplace (pyReplace srcPath ".nii.gz" ".json") ".nii" ".json"

/-- `get_session_number` (lines 290-294): strip leading zeros and parse as
int; any ValueError (empty string after stripping, non-digits, or the text
"None") yields 1.  `str(ses_str)` is falsy only for the empty string. -/
def get_session_number (ses : Option String) : Int :=
  match ses with
  | some s =>
      if s = "" then 1
      else
        match pyInt ((s.data.dropWhile (· = '0')).asString) with
        | some n => n
        | none => 1
  | none => 1  -- str(None) = "None", and int("None") raises ValueError → 1

/-- The per-file body of `bids_to_hcp_example` (lines 319-408).  Returns
the updated counters and the actions taken for this file, or an error when
the Python code would raise: for a bold/sbref file whose groupdict has
`task = None`, line 355 evaluates `task.lower()` and raises AttributeError,
aborting the whole traversal. -/
def processExFile (outDir : String) (c : Counters) (it : ExItem) :
    Except String (Counters × List FsAction) :=
  let file := it.fileName
  if ¬(strEndsWith file ".nii" ∨ strEndsWith file ".nii.gz" ∨ strEndsWith file ".json") then
    .ok (c, [])
  else
    match get_bids_info_from_filename file with
    | none => .ok (c, [.report ("Warning: Could not parse BIDS filename: " ++ file)])
    | some info =>
      let modality := strLower (info.modality.getD "")
      let sesNum := get_session_number info.ses
      let runV := match info.run with
        | some r => if r = "" then "1" else r
        | none => "1"
      let srcPath := it.dirPath ++ "/" ++ file
      let ext := if strEndsWith file ".nii.gz" then ".nii.gz"
                 else if strEndsWith file ".nii" then ".nii" else ".json"
      let subjOut := outDir ++ "/" ++ it.subjectId
      if modality = "t1w" ∨ modality = "t2w" then
        if ext = ".json" then .ok (c, [])
        else
          let modKey := if modality = "t1w" then "T1w" else "T2w"
          let c' := bumpCount c it.subjectId modKey
          let num := c' it.subjectId modKey
          let destDir := subjOut ++ "/anat/unprocessed/" ++ modKey
          .ok (c', [.mkdirp destDir,
                    .copyFile srcPath (destDir ++ "/" ++ modKey ++ "_" ++ toString num ++ ext)])
      else if modality = "bold" ∨ modality = "sbref" then
        match info.task with
        | none => .error "AttributeError: NoneType has no attribute lower"
        | some task =>
          if strLower task ≠ "rest" then .ok (c, [])
          else
            let echoS := match info.echo with
              | some e => if e = "" then "1" else e
              | none => "1"
            let destDir := subjOut ++ "/func/unprocessed/rest/session_" ++ toString sesNum
                             ++ "/run_" ++ runV
            if modality = "bold" then
              let base := "Rest_S" ++ toString sesNum ++ "_R" ++ runV ++ "_E" ++ echoS
              let jsonCopies :=
                if it.sidecarExists then
                  [FsAction.copyFile (jsonSrcOf srcPath) (destDir ++ "/" ++ base ++ ".json")]
                else []
              .ok (c, [.mkdirp destDir, .copyFile srcPath (destDir ++ "/" ++ base ++ ext)]
                        ++ jsonCopies)
            else
              let base := "Sbref_S" ++ toString sesNum ++ "_R" ++ runV ++ "_E" ++ echoS
              .ok (c, [.mkdirp destDir, .copyFile srcPath (destDir ++ "/" ++ base ++ ext)])
      else if modality = "epi" then
        let destDir := subjOut ++ "/func/unprocessed/field_maps"
        let dirTag0 := strUpper (info.dir.getD "")
        let dirTag :=
          if dirTag0 = "AP" ∨ dirTag0 = "PA" then dirTag0
          else
            let jd := if it.sidecarExists then it.sidecar else {}
            let t := strUpper (get_phase_encoding_info jd file)
            if t = "UNKNOWN" then "AP" else t
        let base := dirTag ++ "_S" ++ toString sesNum ++ "_R" ++ runV
        if ext = ".json" then
          .ok (c, [.mkdirp destDir, .copyFile srcPath (destDir ++ "/" ++ base ++ ".json")])
        else
          .ok (c, [.mkdirp destDir, .copyFile srcPath (destDir ++ "/" ++ base ++ ext)])
      else
        .ok (c, [])

/-- Process a stream of items, threading the counters; the trace keeps one
action list per item.  An AttributeError aborts the whole run. -/
def processItems (outDir : String) (c : Counters) :
    List ExItem → Except String (List (List FsAction))
  | [] => .ok []
  | it :: rest =>
      match processExFile outDir c it with
      | .error e => .error e
      | .ok (c', acts) =>
          match processItems outDir c' rest with
          | .error e => .error e
          | .ok trs => .ok (acts :: trs)

/-- `main` of src/bids2hcp/convert.py (lines 411-435): when the input
directory does not exist the script prints an error message and returns
normally (process exit status 0); otherwise it runs `bids_to_hcp_example`,
which either completes (exit 0) or raises an uncaught exception out of
`main` (non-zero exit with a traceback). -/
def convert_main_exit (inputIsDir : Bool) (outDir : String) (items : List ExItem) : Nat :=
  if ¬inputIsDir then 0
  else
    match processItems outDir initCounters items with
    | .ok _ => 0
    | .error _ => 1

/-! ## src/nifti2bids/nifti2bids.py

The source directory is modelled as the list of file names it contains
(`src_dir.glob("*")`, in listing order); a path exists iff its relative
name is in that list.  The planner below computes, section by section in
source order, the list of `(src, dst)` copy pairs that `main` feeds to
`copy_or_print`; the effect trace is then the `ensure_dirs` directory
creations followed by the per-copy effects. -/

/-- Python `s.split(sep)` for a single-character separator. -/
def pySplitChar (sep : Char) : List Char → List (List Char)
  | [] => [[]]
  | c :: cs =>
      let r := pySplitChar sep cs
      if c = sep then [] :: r
      else
        match r with
        | [] => [[c]]
        | h :: t => (c :: h) :: t

/-- `series_num_from_name` (lines 61-71): int of the last `_`-separated
part of the name before its first dot; None when that is not an int. -/
def series_num_from_name (name : String) : Option Int :=
  let base := firstDotComponent name
  let parts := pySplitChar '_' base.data
  match parts.getLast? with
  | some p => pyInt p.asString
  | none => none

/-- `is_nii_name` (lines 74-76). -/
def is_nii_name (name : String) : Bool :=
  let n := strLower name
  strEndsWith n ".nii" || strEndsWith n ".nii.gz"

/-- Python `x or d` on an optional int sort key: None and 0 are falsy. -/
def pyOrKey (o : Option Int) (d : Int) : Int :=
  match o with
  | some n => if n = 0 then d else n
  | none => d

/-- Stable insertion of `x` into a key-sorted list: `x` goes after every
element whose key is less than or equal to its own. -/
def insertStable {α : Type} (key : α → Int) (x : α) : List α → List α
  | [] => [x]
  | y :: ys => if key x < key y then x :: y :: ys else y :: insertStable key x ys

/-- Python `sorted(l, key=key)`: a stable sort by key. -/
def pySorted {α : Type} (key : α → Int) (l : List α) : List α :=
  l.foldl (fun acc x => insertStable key x acc) []

/-- `sorted(l, key=key)[0]` as an Option (first element with minimal key). -/
def sortedHead {α : Type} (key : α → Int) (l : List α) : Option α :=
  (pySorted key l).head?

/-- `sorted(l, key=key)[-1]` as an Option (last element with maximal key). -/
def sortedLast {α : Type} (key : α → Int) (l : List α) : Option α :=
  (pySorted key l).getLast?

/-- `Path.name`: the final path component. -/
def pathName (p : String) : String := (pyBasename p.data).asString

/-- `default_subject_from_src_dir` (lines 84-91): from the source directory
name, take the part starting at "EFI_" when present (else the whole name)
and delete all underscores. -/
def findSubIdx (needle : List Char) : List Char → Option Nat
  | [] => if needle.isEmpty then some 0 else none
  | c :: cs =>
      if hasPref needle (c :: cs) then some 0
      else (findSubIdx needle cs).map (· + 1)

/-- `default_subject_from_src_dir` (lines 84-91). -/
def default_subject_from_src_dir (srcDir : String) : String :=
  let name := pathName srcDir
  match findSubIdx "EFI_".data name.data with
  | some idx => ((name.data.drop idx).filter (· ≠ '_')).asString
  | none => (name.data.filter (· ≠ '_')).asString

/-- `copy_or_print` (lines 94-99): always print the planned action; only
when not in dry-run mode create the parent directory and copy. -/
def parentDir (p : String) : String :=
  ((p.data.reverse.dropWhile (· ≠ '/')).drop 1).reverse.asString

/-- `copy_or_print` (lines 94-99). -/
def copy_or_print (src dst : String) (dryRun : Bool) : List FsAction :=
  FsAction.report ((if dryRun then "[PLAN] " else "[COPY] ") ++ src ++ " -> " ++ dst) ::
    (if dryRun then [] else [.mkdirp (parentDir dst), .copyFile src dst])

/-- `ensure_dirs` (lines 79-81): unconditionally create the four category
directories under the output root. -/
def ensure_dirs (root : String) : List FsAction :=
  ["anat", "dwi", "fmap", "func"].map (fun d => .mkdirp (root ++ "/" ++ d))

/-- `find_pair` (lines 102-108): for each extension, in order, keep
`base.ext` when that file exists in the source directory.  Values are the
source-relative file names. -/
def find_pair (srcNames : List String) (base : String) (exts : List String) :
    List (String × String) :=
  exts.filterMap (fun ext =>
    if srcNames.contains (base ++ "." ++ ext) then some (ext, base ++ "." ++ ext) else none)

/-- CLI arguments of nifti2bids (minus src-dir existence, handled in main). -/
structure NiftiArgs where
  srcDir : String
  outDir : String
  subject : Option String := none
  srcList : Option (List String) := none
  dryRun : Bool := false
deriving Repr, DecidableEq

/-- `subject = args.subject or default_subject_from_src_dir(src_dir)`
(an empty subject argument is falsy). -/
def resolveSubject (a : NiftiArgs) : String :=
  match a.subject with
  | some s => if s = "" then default_subject_from_src_dir a.srcDir else s
  | none => default_subject_from_src_dir a.srcDir

/-- The candidate basenames (lines 122-133): with a src-list, the listed
names that exist; otherwise the directory listing.  `f.name` drops any
leading directories from src-list entries. -/
def niftiBasenames (srcNames : List String) (a : NiftiArgs) : List String :=
  match a.srcList with
  | some items => (items.filter (fun x => srcNames.contains x)).map pathName
  | none => srcNames.map pathName

/-- Entries of the `dwi_pa_series` dict for one candidate file `b`
(lines 169-179): record the `.nii.gz` itself and any existing
bval/bvec/json companions of the same base. -/
def dwiSeriesStep (srcNames : List String) (d : List (Int × List (String × String)))
    (b : String) : List (Int × List (String × String)) :=
  match series_num_from_name b with
  | none => d
  | some s =>
      let base := firstDotComponent b
      let entry := (dictGet? d s).getD []
      let entry := dictSet entry "nii.gz" b
      let entry := ["bval", "bvec", "json"].foldl (fun e ext =>
        if srcNames.contains (base ++ "." ++ ext) then dictSet e ext (base ++ "." ++ ext) else e)
        entry
      dictSet d s entry

/-- The `dwi_pa_series` dict (lines 167-179). -/
def dwiPaSeries (srcNames : List String) (basenames : List String) :
    List (Int × List (String × String)) :=
  (basenames.filter (fun b => strContainsSub b "sms4_diff_CMR130_PA" && strEndsWith b ".nii.gz")).foldl
    (dwiSeriesStep srcNames) []

/-- Does a series entry have both bval and bvec companions? -/
def hasBvalBvec (m : List (String × String)) : Bool :=
  (dictGet? m "bval").isSome && (dictGet? m "bvec").isSome

/-- `preferred in dwi_pa_series and "bval" in ... and "bvec" in ...`
(line 184): the series is present and has both companions. -/
def seriesQualifies (d : List (Int × List (String × String))) (p : Int) : Bool :=
  match dictGet? d p with
  | some m => hasBvalBvec m
  | none => false

/-- `pick_series` selection (lines 181-191): prefer series 8, then 6, when
present with both companions; else the largest series having both
(`sorted(available)[-1]`); None when no series qualifies. -/
def pickSeries (d : List (Int × List (String × String))) : Option Int :=
  match [(8 : Int), 6].find? (seriesQualifies d) with
  | some p => some p
  | none =>
      let available := (d.filter (fun sm => hasBvalBvec sm.2)).map (·.1)
      sortedLast (fun s => s) available

/-- The dwi-section copy plans (lines 193-197). -/
def dwiPlans (srcNames : List String) (a : NiftiArgs) (subject : String)
    (basenames : List String) : List (String × String) :=
  let d := dwiPaSeries srcNames basenames
  match pickSeries d with
  | none => []
  | some s =>
      match dictGet? d s with
      | none => []
      | some m =>
          m.map (fun p =>
            (a.srcDir ++ "/" ++ p.2, a.outDir ++ "/dwi/sub-" ++ subject ++ "_dir-PA_dwi." ++ p.1))

/-- `pick_fmap` (lines 210-217). -/
def pick_fmap (srcNames basenames : List String) (direction kind : String) :
    Option (List (String × String)) :=
  let cand := basenames.filter (fun b =>
    strContainsSub b ("ep2d_se_2mm_" ++ direction ++ "_" ++ kind) && strEndsWith b ".nii.gz")
  match sortedLast (fun x => pyOrKey (series_num_from_name x) 0) cand with
  | none => none
  | some b => some (find_pair srcNames (firstDotComponent b) ["nii.gz", "json"])

/-- Python `a or b` on pick_fmap results: None and the empty dict are falsy. -/
def pyOrDict (x y : Option (List (String × String))) : Option (List (String × String)) :=
  match x with
  | some m => if m.isEmpty then y else some m
  | none => y

/-- Guarded emission: `if d:` on a pick_fmap result. -/
def emitIfTruthy (d : Option (List (String × String)))
    (mk : String × String → String × String) : List (String × String) :=
  match d with
  | some m => if m.isEmpty then [] else m.map mk
  | none => []

/-- The func task table of section 5, in insertion order. -/
def niftiTaskMap : List (String × String) :=
  [("fm", "sms4_bold_fm"), ("math", "sms4_bold_math"), ("natural", "sms4_bold_natural"),
   ("nback", "sms4_bold_nback"), ("read", "sms4_bold_read"), ("sst", "sms4_bold_sst"),
   ("switch", "sms4_bold_switch")]

/-- All copy plans of `main` (lines 136-284), in source order. -/
def niftiPlans (srcNames : List String) (a : NiftiArgs) : List (String × String) :=
  let subject := resolveSubject a
  let basenames := niftiBasenames srcNames a
  let srcOf := fun (rel : String) => a.srcDir ++ "/" ++ rel
  -- 1) ANAT
  let t1Cands := basenames.filter (fun b =>
    strContainsSub (strLower b) "t1" && strContainsSub (strLower b) "mprage" && is_nii_name b)
  let t1Plans :=
    match sortedHead (fun x => pyOrKey (series_num_from_name x) 9999) t1Cands with
    | none => []
    | some pick =>
        (find_pair srcNames (firstDotComponent pick) ["nii.gz", "nii", "json"]).map (fun p =>
          (srcOf p.2, a.outDir ++ "/anat/sub-" ++ subject ++ "_run-1_T1w." ++ p.1))
  let t2Cands := basenames.filter (fun b =>
    strContainsSub (strLower b) "t2" && strContainsSub (strLower b) "spc" && is_nii_name b)
  let t2Plans :=
    match sortedHead (fun x => pyOrKey (series_num_from_name x) 9999) t2Cands with
    | none => []
    | some pick =>
        (find_pair srcNames (firstDotComponent pick) ["nii.gz", "nii", "json"]).map (fun p =>
          (srcOf p.2, a.outDir ++ "/anat/sub-" ++ subject ++ "_T2w." ++ p.1))
  -- 2) DWI (PA)
  let dwiPlanList := dwiPlans srcNames a subject basenames
  -- 3) FMAP for DWI (AP B0)
  let b0Cands := basenames.filter (fun b =>
    strContainsSub b "sms4_diff_CMR130_B0_AP" && strEndsWith b ".nii.gz")
  let b0Plans :=
    match sortedLast (fun x => pyOrKey (series_num_from_name x) 0) b0Cands with
    | none => []
    | some b =>
        (find_pair srcNames (firstDotComponent b) ["nii.gz", "json"]).map (fun p =>
          (srcOf p.2, a.outDir ++ "/fmap/sub-" ++ subject ++ "_acq-dwi_dir-AP_epi." ++ p.1))
  -- 4) FMAP for BOLD
  let restApPlans := emitIfTruthy (pick_fmap srcNames basenames "AP" "REST") (fun p =>
    (srcOf p.2, a.outDir ++ "/fmap/sub-" ++ subject ++ "_dir-AP_acq-rest_epi." ++ p.1))
  let restPaPlans := emitIfTruthy (pick_fmap srcNames basenames "PA" "REST") (fun p =>
    (srcOf p.2, a.outDir ++ "/fmap/sub-" ++ subject ++ "_dir-PA_acq-rest_epi." ++ p.1))
  let taskApPlans := emitIfTruthy
    (pyOrDict (pick_fmap srcNames basenames "AP" "TASK1") (pick_fmap srcNames basenames "AP" "TASK2"))
    (fun p => (srcOf p.2, a.outDir ++ "/fmap/sub-" ++ subject ++ "_dir-AP_acq-task_epi." ++ p.1))
  let taskPaPlans := emitIfTruthy
    (pyOrDict (pick_fmap srcNames basenames "PA" "TASK1") (pick_fmap srcNames basenames "PA" "TASK2"))
    (fun p => (srcOf p.2, a.outDir ++ "/fmap/sub-" ++ subject ++ "_dir-PA_acq-task_epi." ++ p.1))
  -- 5) FUNC BOLD: REST 1/2 then the task table
  let restPlansFor := fun (token runLabel : String) =>
    let cands := basenames.filter (fun b => strContainsSub b token && strEndsWith b ".nii.gz")
    match sortedHead (fun x => pyOrKey (series_num_from_name x) 0) cands with
    | none => []
    | some b =>
        (find_pair srcNames (firstDotComponent b) ["nii.gz", "json"]).map (fun p =>
          (srcOf p.2, a.outDir ++ "/func/sub-" ++ subject ++ "_task-rest_run-" ++ runLabel
             ++ "_bold." ++ p.1))
  let rest1Plans := restPlansFor "sms4_bold_rest1" "1"
  let rest2Plans := restPlansFor "sms4_bold_rest2" "2"
  let taskPlans := niftiTaskMap.flatMap (fun tt =>
    let bolds := basenames.filter (fun b => strContainsSub b tt.2 && strEndsWith b ".nii.gz")
    let boldsSorted := pySorted (fun x => pyOrKey (series_num_from_name x) 0) bolds
    ((List.range' 1 boldsSorted.length).zip boldsSorted).flatMap (fun ib =>
      let runSfx := if boldsSorted.length > 1 then "_run-" ++ toString ib.1 else ""
      (find_pair srcNames (firstDotComponent ib.2) ["nii.gz", "json"]).map (fun p =>
        (srcOf p.2, a.outDir ++ "/func/sub-" ++ subject ++ "_task-" ++ tt.1 ++ runSfx
           ++ "_bold." ++ p.1))))
  t1Plans ++ t2Plans ++ dwiPlanList ++ b0Plans ++ restApPlans ++ restPaPlans
    ++ taskApPlans ++ taskPaPlans ++ rest1Plans ++ rest2Plans ++ taskPlans

/-- The effect trace of a nifti2bids run on an existing source directory:
`ensure_dirs` runs unconditionally (dry-run included), then each planned
copy goes through `copy_or_print`. -/
def niftiEffects (srcNames : List String) (a : NiftiArgs) : List FsAction :=
  ensure_dirs a.outDir
    ++ (niftiPlans srcNames a).flatMap (fun p => copy_or_print p.1 p.2 a.dryRun)

/-- `main` of src/nifti2bids/nifti2bids.py (lines 111-286): `sys.exit(1)`
when the source directory does not exist; otherwise the run completes
normally (exit 0) with the effect trace above. -/
def nifti_main (srcExists : Bool) (srcNames : List String) (a : NiftiArgs) :
    Nat × List FsAction :=
  if ¬srcExists then (1, [.report "ERROR: src-dir does not exist"])
  else (0, niftiEffects srcNames a ++ [.report "done"])

/-! ## Claim-side definitions -/

/-- A filename with every optional field present, in the canonical order of
the regex (task, acq, dir, run, echo, mod), with suffix `_bold` and
extension `.nii`. -/
def canonicalBidsName (sub ses t a d r e m : List Char) : List Char :=
  "sub-".data ++ sub ++ "_ses-".data ++ ses ++ "_task-".data ++ t ++ "_acq-".data ++ a ++
  "_dir-".data ++ d ++ "_run-".data ++ r ++ "_echo-".data ++ e ++ "_mod-".data ++ m ++
  "_bold.nii".data

/-- Characters legal in a field value for the canonical-order round trip:
anything except the underscore separator and the path separator. -/
def goodVal (v : List Char) : Prop := v ≠ [] ∧ ∀ c ∈ v, c ≠ '_' ∧ c ≠ '/'

instance (v : List Char) : Decidable (goodVal v) := by
  unfold goodVal; infer_instance

/-- Does the per-file body of `bids_to_hcp_example` treat this item as an
anatomical image of subject `s` and modality key `k` (i.e. reach the
counter-incrementing T1w/T2w branch)?  Mirrors the branch conditions of
`processExFile`. -/
def anatHit (s k : String) (it : ExItem) : Bool :=
  (match get_bids_info_from_filename it.fileName with
   | none => false
   | some info =>
      let md := strLower (info.modality.getD "")
      (md = "t1w" || md = "t2w") &&
      (strEndsWith it.fileName ".nii.gz" || strEndsWith it.fileName ".nii") &&
      (it.subjectId = s) && ((if md = "t1w" then "T1w" else "T2w") = k))

/-- The two actions the anat branch performs for item `it` when the counter
value assigned to it is `n`. -/
def anatDest (outDir : String) (it : ExItem) (k : String) (n : Nat) : List FsAction :=
  let ext := if strEndsWith it.fileName ".nii.gz" then ".nii.gz" else ".nii"
  let destDir := outDir ++ "/" ++ it.subjectId ++ "/anat/unprocessed/" ++ k
  [.mkdirp destDir,
   .copyFile (it.dirPath ++ "/" ++ it.fileName)
     (destDir ++ "/" ++ k ++ "_" ++ toString n ++ ext)]

/-- The expected traces for a run of anat items numbered consecutively
from `n`. -/
def expectedAnatTraces (outDir k : String) : List ExItem → Nat → List (List FsAction)
  | [], _ => []
  | it :: rest, n => anatDest outDir it k n :: expectedAnatTraces outDir k rest (n + 1)

/-- Scenario D input: two T1w files of one subject. -/
def scenarioDItems : List ExItem :=
  [ { dirPath := "/b/sub-01/ses-01/anat", subjectId := "01", sessionId := "01",
      fileName := "sub-01_ses-01_run-1_T1w.nii.gz" },
    { dirPath := "/b/sub-01/ses-01/anat", subjectId := "01", sessionId := "01",
      fileName := "sub-01_ses-01_run-2_T1w.nii.gz" } ]

/-- The trace `bids_to_hcp_example` produces on Scenario D. -/
def scenarioDTrace : List (List FsAction) :=
  [ [.mkdirp "/out/01/anat/unprocessed/T1w",
     .copyFile "/b/sub-01/ses-01/anat/sub-01_ses-01_run-1_T1w.nii.gz"
       "/out/01/anat/unprocessed/T1w/T1w_1.nii.gz"],
    [.mkdirp "/out/01/anat/unprocessed/T1w",
     .copyFile "/b/sub-01/ses-01/anat/sub-01_ses-01_run-2_T1w.nii.gz"
       "/out/01/anat/unprocessed/T1w/T1w_2.nii.gz"] ]

/-- Scenario D with an interleaved bold file that has no task entity. -/
def interleavedCrashItems : List ExItem :=
  [ { dirPath := "/b/sub-01/ses-01/anat", subjectId := "01", sessionId := "01",
      fileName := "sub-01_ses-01_run-1_T1w.nii.gz" },
    { dirPath := "/b/sub-01/ses-01/func", subjectId := "01", sessionId := "01",
      fileName := "sub-01_ses-01_bold.nii.gz" },
    { dirPath := "/b/sub-01/ses-01/anat", subjectId := "01", sessionId := "01",
      fileName := "sub-01_ses-01_run-2_T1w.nii.gz" } ]

/-- The keys of a series dict that have both bval and bvec companions
(the `available` list of lines 188-189). -/
def qualifyingOf (d : List (Int × List (String × String))) : List Int :=
  (d.filter (fun sm => hasBvalBvec sm.2)).map (·.1)

/-- The series numbers of `dwi_pa_series` that have both bval and bvec
companions. -/
def qualifyingSeries (srcNames basenames : List String) : List Int :=
  qualifyingOf (dwiPaSeries srcNames basenames)

/-- Is this effect a file copy? -/
def isCopyAction : FsAction → Bool
  | .copyFile _ _ => true
  | _ => false

/-- Is this effect a directory creation? -/
def isMkdirAction : FsAction → Bool
  | .mkdirp _ => true
  | _ => false

end NeuroPipeline

namespace NeuroPipeline

/-! Quick sanity examples for the parser (golden inputs from the spec). -/

example :
    (get_bids_info_from_filename "sub-01_ses-01_task-rest_run-1_bold.nii").isSome = true := by
  decide

example : get_bids_info_from_filename "random_scan_001.nii" = none := by
  decide

example :
    get_bids_info_from_filename "sub-01_ses-01_task-rest_run-1_bold.nii" =
      some { sub := some "01", ses := some "01", task := some "rest", run := some "1",
             suffix := some "_bold", extension := some ".nii", modality := some "bold" } := by
  decide

example :
    get_bids_info_from_filename "sub-01_ses-01_run-1_task-rest_bold.nii" = none := by
  decide

/-! Sanity examples for resolver / classifier / synthesizer. -/

example :
    get_phase_encoding_info { phaseEncodingDirection := some "j" }
      "sub-01_ses-01_task-rest_run-1_bold.nii" = "j" := by
  decide

example :
    get_phase_encoding_info {} "sub-02_ses-01_dir-AP_epi.nii.gz" = "AP" := by
  decide

example :
    bids_to_hcp_file "sub-01_ses-01_task-rest_run-1_bold.nii"
        { phaseEncodingDirection := some "j" } =
      .ok (some ⟨"func", "rfMRI_REST1_j", "rfMRI_REST1_1_j_nii"⟩) := by
  decide

example :
    bids_to_hcp_file "sub-01_ses-01_task-emotion_bold.nii.gz" {} =
      .ok (some ⟨"func", "tfMRI_EMOTION_UNKNOWN", "tfMRI_EMOTION_UNKNOWN_nii_gz"⟩) := by
  decide

example :
    (get_bids_info_from_filename "sub-01_ses-01_task-rest_bold.nii").map
      (fun info => determine_hcp_modality_and_task info {}) =
    some (.ok ("func", "rfMRI_RESTNone")) := by
  decide

example :
    determine_hcp_modality_and_task { suffix := some "_epi" }
      { intendedFor := some (.list []) } =
    .error "AttributeError: list has no attribute lower" := by
  decide

example :
    determine_hcp_modality_and_task { suffix := some "_epi" }
      { intendedFor := some (.list ["sub-02/dwi/sub-02_dwi.nii.gz"]) } =
    .ok ("dwi", "Diffusion") := by
  decide

/-! Sanity examples for the example-converter walker body (Scenario D). -/

example :
    processItems "/out" initCounters
      [ { dirPath := "/b/sub-01/ses-01/anat", subjectId := "01", sessionId := "01",
          fileName := "sub-01_ses-01_run-1_T1w.nii.gz" },
        { dirPath := "/b/sub-01/ses-01/anat", subjectId := "01", sessionId := "01",
          fileName := "sub-01_ses-01_run-2_T1w.nii.gz" } ] =
    .ok [ [.mkdirp "/out/01/anat/unprocessed/T1w",
           .copyFile "/b/sub-01/ses-01/anat/sub-01_ses-01_run-1_T1w.nii.gz"
             "/out/01/anat/unprocessed/T1w/T1w_1.nii.gz"],
          [.mkdirp "/out/01/anat/unprocessed/T1w",
           .copyFile "/b/sub-01/ses-01/anat/sub-01_ses-01_run-2_T1w.nii.gz"
             "/out/01/anat/unprocessed/T1w/T1w_2.nii.gz"] ] := by
  decide

example :
    processItems "/out" initCounters
      [ { dirPath := "/b/sub-01/ses-01/anat", subjectId := "01", sessionId := "01",
          fileName := "sub-01_ses-01_run-1_T1w.nii.gz" },
        { dirPath := "/b/sub-01/ses-01/func", subjectId := "01", sessionId := "01",
          fileName := "sub-01_ses-01_bold.nii.gz" },
        { dirPath := "/b/sub-01/ses-01/anat", subjectId := "01", sessionId := "01",
          fileName := "sub-01_ses-01_run-2_T1w.nii.gz" } ] =
    .error "AttributeError: NoneType has no attribute lower" := by
  decide

/-! Sanity examples for nifti2bids. -/

example :
    niftiEffects [] { srcDir := "/src", outDir := "/out", subject := some "S", dryRun := true } =
      [.mkdirp "/out/anat", .mkdirp "/out/dwi", .mkdirp "/out/fmap", .mkdirp "/out/func"] := by
  decide

example :
    pickSeries (dwiPaSeries
      ["x_sms4_diff_CMR130_PA_6.nii.gz", "x_sms4_diff_CMR130_PA_6.bval",
       "x_sms4_diff_CMR130_PA_6.bvec", "x_sms4_diff_CMR130_PA_8.nii.gz"]
      ["x_sms4_diff_CMR130_PA_6.nii.gz", "x_sms4_diff_CMR130_PA_8.nii.gz"]) = some 6 := by
  decide

example :
    pickSeries (dwiPaSeries
      ["x_sms4_diff_CMR130_PA_6.nii.gz", "x_sms4_diff_CMR130_PA_6.bval",
       "x_sms4_diff_CMR130_PA_6.bvec", "x_sms4_diff_CMR130_PA_8.nii.gz",
       "x_sms4_diff_CMR130_PA_8.bval", "x_sms4_diff_CMR130_PA_8.bvec"]
      ["x_sms4_diff_CMR130_PA_6.nii.gz", "x_sms4_diff_CMR130_PA_8.nii.gz"]) = some 8 := by
  decide

example :
    pickSeries (dwiPaSeries
      ["x_sms4_diff_CMR130_PA_3.nii.gz", "x_sms4_diff_CMR130_PA_3.bval",
       "x_sms4_diff_CMR130_PA_3.bvec", "x_sms4_diff_CMR130_PA_9.nii.gz",
       "x_sms4_diff_CMR130_PA_9.bval", "x_sms4_diff_CMR130_PA_9.bvec"]
      ["x_sms4_diff_CMR130_PA_3.nii.gz", "x_sms4_diff_CMR130_PA_9.nii.gz"]) = some 9 := by
  decide

example :
    dwiPlans ["x_sms4_diff_CMR130_PA_8.nii.gz", "x_sms4_diff_CMR130_PA_8.bval",
              "x_sms4_diff_CMR130_PA_8.bvec"]
      { srcDir := "/s", outDir := "/o", subject := some "S" } "S"
      ["x_sms4_diff_CMR130_PA_8.nii.gz"] =
    [("/s/x_sms4_diff_CMR130_PA_8.nii.gz", "/o/dwi/sub-S_dir-PA_dwi.nii.gz"),
     ("/s/x_sms4_diff_CMR130_PA_8.bval", "/o/dwi/sub-S_dir-PA_dwi.bval"),
     ("/s/x_sms4_diff_CMR130_PA_8.bvec", "/o/dwi/sub-S_dir-PA_dwi.bvec")] := by
  decide

end NeuroPipeline

namespace NeuroPipeline

/-! ## Theorems for the claims -/

/-- C1 (code bug evaluation): for the sidecar value `PhaseEncodingDirection
= "j"` the code does NOT return the mapped direction `AP`: the lookup key is
upper-cased (`"J"`) while the table keys are lowercase, so the table never
fires and the raw axis code is returned for every case variant of every
axis code; on Scenario A the resolved direction is `"j"` and the destination
filename is `"rfMRI_REST1_1_j_nii"`, not `"rfMRI_REST1_AP.nii"`. -/
theorem c1_phase_encoding_map_never_fires :
    get_phase_encoding_info { phaseEncodingDirection := some "j" }
        "sub-01_ses-01_task-rest_run-1_bold.nii" = "j" ∧
    (∀ pe ∈ ["i", "I", "i-", "I-", "j", "J", "j-", "J-"],
      get_phase_encoding_info { phaseEncodingDirection := some pe } "file_bold.nii" = pe) ∧
    bids_to_hcp_file "sub-01_ses-01_task-rest_run-1_bold.nii"
        { phaseEncodingDirection := some "j" } =
      .ok (some ⟨"func", "rfMRI_REST1_j", "rfMRI_REST1_1_j_nii"⟩) := by
  refine ⟨by decide, by decide, by decide⟩

/-- C2 (code bug evaluation): on Scenario B the destination filename is
built by joining the parts with `"_"`, so the `.nii.gz` extension comes out
as the literal tail `"_nii_gz"`; the produced name does not end in
`.nii.gz`. -/
theorem c2_extension_joined_with_underscores :
    bids_to_hcp_file "sub-01_ses-01_task-emotion_bold.nii.gz" {} =
      .ok (some ⟨"func", "tfMRI_EMOTION_UNKNOWN", "tfMRI_EMOTION_UNKNOWN_nii_gz"⟩) ∧
    strEndsWith "tfMRI_EMOTION_UNKNOWN_nii_gz" ".nii.gz" = false := by
  refine ⟨by decide, by decide⟩

/-- C4 (code bug evaluation): for a rest bold file with no `run-` entity the
groupdict stores `run = None`, `bids_info.get('run', '1')` returns that
`None` (the key is present), and the f-string renders it as the text
`None`: the label is `"rfMRI_RESTNone"`, not `"rfMRI_REST1"`. -/
theorem c4_rest_without_run_yields_RESTNone :
    (get_bids_info_from_filename "sub-01_ses-01_task-rest_bold.nii").map
        (fun info => determine_hcp_modality_and_task info {}) =
      some (.ok ("func", "rfMRI_RESTNone")) := by
  decide

/-- C5 (code bug evaluation): for an `_epi` file, a missing `IntendedFor`
and an `IntendedFor` that is the empty string both classify as `fmap`, and
a nonempty list mentioning dwi classifies as `dwi`; but an `IntendedFor`
that is the EMPTY list survives the `isinstance(...) and intended_for`
guard as a list and `intended_for.lower()` raises AttributeError instead of
returning `fmap`. -/
theorem c5_empty_intendedfor_list_raises :
    determine_hcp_modality_and_task { suffix := some "_epi" } {} =
      .ok ("fmap", "SpinEchoFieldMap") ∧
    determine_hcp_modality_and_task { suffix := some "_epi" }
        { intendedFor := some (.str "") } = .ok ("fmap", "SpinEchoFieldMap") ∧
    determine_hcp_modality_and_task { suffix := some "_epi" }
        { intendedFor := some (.list ["sub-02/dwi/sub-02_dwi.nii.gz"]) } =
      .ok ("dwi", "Diffusion") ∧
    determine_hcp_modality_and_task { suffix := some "_epi" }
        { intendedFor := some (.list []) } =
      .error "AttributeError: list has no attribute lower" := by
  refine ⟨by decide, by decide, by decide, by decide⟩

/-- C8 counterexample: when the input directory of the bids2hcp converter
does not exist, `main` prints an error message and returns normally, so the
process exit status is 0, not the non-zero status the claim requires. -/
theorem c8_convert_missing_input_exits_zero :
    convert_main_exit false "/out" [] = 0 := by
  decide

/-- C8 amended: the nifti2bids tool exits 1 when its source directory does
not exist and completes with exit 0 otherwise; the bids2hcp tool exits 0
when its input directory is missing (it only prints an error), exits 0
when the per-file pipeline completes, and exits non-zero when the pipeline
raises (which a bold/sbref file without a task entity makes it do). -/
theorem c8_exit_behavior (srcNames : List String) (a : NiftiArgs)
    (outDir : String) (items : List ExItem) :
    (nifti_main false srcNames a).1 = 1 ∧
    (nifti_main true srcNames a).1 = 0 ∧
    convert_main_exit false outDir items = 0 ∧
    (∀ trs, processItems outDir initCounters items = .ok trs →
      convert_main_exit true outDir items = 0) ∧
    (∀ e, processItems outDir initCounters items = .error e →
      convert_main_exit true outDir items = 1) := by
  refine ⟨rfl, rfl, rfl, ?_, ?_⟩
  · intro trs h
    simp [convert_main_exit, h]
  · intro e h
    simp [convert_main_exit, h]

/-- Witness for `c8_exit_behavior` at concrete inputs: an empty item list
completes (exit 0) and the interleaved-crash item list aborts (exit 1). -/
theorem c8_exit_behavior_witness :
    convert_main_exit true "/out" [] = 0 ∧
    convert_main_exit true "/out" interleavedCrashItems = 1 := by
  constructor
  · exact (c8_exit_behavior [] {srcDir := "/s", outDir := "/o"} "/out" []).2.2.2.1 [] (by decide)
  · exact (c8_exit_behavior [] {srcDir := "/s", outDir := "/o"} "/out"
      interleavedCrashItems).2.2.2.2 "AttributeError: NoneType has no attribute lower" (by decide)

end NeuroPipeline

namespace NeuroPipeline

/-- In dry-run mode, `copy_or_print` only reports. -/
theorem copy_or_print_dry (src dst : String) :
    copy_or_print src dst true = [.report ("[PLAN] " ++ src ++ " -> " ++ dst)] := rfl

/-- In dry-run mode the per-copy effects contain no file copy. -/
theorem flatMap_dry_no_copy (ps : List (String × String)) :
    ((ps.flatMap (fun p => copy_or_print p.1 p.2 true)).filter isCopyAction) = [] := by
  induction ps with
  | nil => rfl
  | cons p ps ih =>
      simp [List.flatMap_cons, List.filter_append, copy_or_print_dry, ih, isCopyAction]
      intro _ _ _ _ h
      subst h
      rfl

/-- In dry-run mode the per-copy effects contain no directory creation. -/
theorem flatMap_dry_no_mkdir (ps : List (String × String)) :
    ((ps.flatMap (fun p => copy_or_print p.1 p.2 true)).filter isMkdirAction) = [] := by
  induction ps with
  | nil => rfl
  | cons p ps ih =>
      simp [List.flatMap_cons, List.filter_append, copy_or_print_dry, ih, isMkdirAction]
      intro _ _ _ _ h
      subst h
      rfl

/-- C9 amended: with the dry-run flag set no file copy is planned or
performed — every copy goes through `copy_or_print`, which only prints in
dry-run mode — but the run still writes to the destination tree: `main`
calls `ensure_dirs` unconditionally, so exactly the four category
directories are created under the output root even in dry-run mode. -/
theorem c9_dry_run_effects (srcNames : List String) (srcDir outDir : String)
    (subj : Option String) (lst : Option (List String)) :
    ((niftiEffects srcNames ⟨srcDir, outDir, subj, lst, true⟩).filter isCopyAction) = [] ∧
    ((niftiEffects srcNames ⟨srcDir, outDir, subj, lst, true⟩).filter isMkdirAction) =
      ["anat", "dwi", "fmap", "func"].map (fun d => .mkdirp (outDir ++ "/" ++ d)) := by
  constructor
  · simp [niftiEffects, List.filter_append, flatMap_dry_no_copy,
      ensure_dirs, isCopyAction]
  · simp [niftiEffects, List.filter_append, flatMap_dry_no_mkdir,
      ensure_dirs, isMkdirAction]

/-- C9 counterexample: a dry run does create a directory under the output
root (`/out/anat` here), contradicting "no write to the destination tree
occurs". -/
theorem c9_dry_run_creates_dirs :
    FsAction.mkdirp "/out/anat" ∈
      (nifti_main true []
        { srcDir := "/src", outDir := "/out", subject := some "S", dryRun := true }).2 := by
  decide

end NeuroPipeline

namespace NeuroPipeline

/-! ### Association-list dictionary lemmas -/

theorem mem_of_dictGet? {α β : Type} [DecidableEq α] (l : List (α × β)) (k : α) (v : β)
    (h : dictGet? l k = some v) : (k, v) ∈ l := by
  induction l with
  | nil => simp [dictGet?] at h
  | cons p ps ih =>
      by_cases hk : p.1 = k
      · simp only [dictGet?, if_pos hk] at h
        cases h
        subst hk
        simp
      · simp only [dictGet?, if_neg hk] at h
        exact List.mem_cons_of_mem _ (ih h)

theorem dictGet?_of_mem_nodup {α β : Type} [DecidableEq α] (l : List (α × β))
    (hnd : (l.map Prod.fst).Nodup) (k : α) (v : β) (h : (k, v) ∈ l) :
    dictGet? l k = some v := by
  induction l with
  | nil => cases h
  | cons p ps ih =>
      rcases List.mem_cons.mp h with h1 | h1
      · subst h1
        simp [dictGet?]
      · have hk : p.1 ≠ k := by
          intro he
          have : k ∈ ps.map Prod.fst := List.mem_map.mpr ⟨(k, v), h1, rfl⟩
          rw [List.map_cons, List.nodup_cons] at hnd
          exact hnd.1 (he ▸ this)
        rw [List.map_cons, List.nodup_cons] at hnd
        simp only [dictGet?, if_neg hk]
        exact ih hnd.2 h1

theorem dictSet_keys_nodup {α β : Type} [DecidableEq α] (l : List (α × β)) (k : α) (v : β)
    (h : (l.map Prod.fst).Nodup) : ((dictSet l k v).map Prod.fst).Nodup := by
  unfold dictSet
  by_cases he : (l.filter (fun p => p.1 = k)).isEmpty
  · rw [if_pos he]
    have hk : k ∉ l.map Prod.fst := by
      intro hm
      rcases List.mem_map.mp hm with ⟨p, hp, hpe⟩
      have := List.filter_eq_nil_iff.mp (List.isEmpty_iff.mp he) p hp
      simp [hpe] at this
    rw [List.map_append]
    exact List.Nodup.append h (List.nodup_singleton k)
      (by simpa [List.disjoint_singleton] using hk)
  · rw [if_neg he]
    have : (l.map (fun p => if p.1 = k then (k, v) else p)).map Prod.fst = l.map Prod.fst := by
      rw [List.map_map]
      apply List.map_congr_left
      intro p _
      by_cases hp : p.1 = k
      · simp [hp]
      · simp [hp]
    rw [this]
    exact h

theorem dwiSeriesStep_keys_nodup (srcNames : List String)
    (d : List (Int × List (String × String))) (b : String)
    (h : (d.map Prod.fst).Nodup) :
    ((dwiSeriesStep srcNames d b).map Prod.fst).Nodup := by
  unfold dwiSeriesStep
  cases series_num_from_name b with
  | none => exact h
  | some s => exact dictSet_keys_nodup _ _ _ h

theorem foldl_dwiSeriesStep_keys_nodup (srcNames : List String) (bs : List String) :
    ∀ d, (d.map Prod.fst).Nodup →
      ((bs.foldl (dwiSeriesStep srcNames) d).map Prod.fst).Nodup := by
  induction bs with
  | nil => intro d h; exact h
  | cons b bs ih =>
      intro d h
      exact ih _ (dwiSeriesStep_keys_nodup srcNames d b h)

theorem dwiPaSeries_keys_nodup (srcNames basenames : List String) :
    ((dwiPaSeries srcNames basenames).map Prod.fst).Nodup := by
  unfold dwiPaSeries
  exact foldl_dwiSeriesStep_keys_nodup srcNames _ [] (by simp)

/-! ### Stable-sort lemmas -/

theorem mem_insertStable {α : Type} (key : α → Int) (x : α) (l : List α) (y : α) :
    y ∈ insertStable key x l ↔ y = x ∨ y ∈ l := by
  induction l with
  | nil => simp [insertStable]
  | cons z zs ih =>
      unfold insertStable
      by_cases hlt : key x < key z
      · rw [if_pos hlt]
        simp
      · rw [if_neg hlt]
        simp [ih]
        tauto

theorem pairwise_insertStable (key : α → Int) (x : α) (l : List α)
    (h : l.Pairwise (fun a b => key a ≤ key b)) :
    (insertStable key x l).Pairwise (fun a b => key a ≤ key b) := by
  induction l with
  | nil => simp [insertStable]
  | cons z zs ih =>
      unfold insertStable
      rcases List.pairwise_cons.mp h with ⟨hz, hzs⟩
      by_cases hlt : key x < key z
      · rw [if_pos hlt]
        refine List.pairwise_cons.mpr ⟨?_, h⟩
        intro y hy
        rcases List.mem_cons.mp hy with h1 | h1
        · exact le_of_lt (h1 ▸ hlt)
        · exact le_trans (le_of_lt hlt) (hz y h1)
      · rw [if_neg hlt]
        refine List.pairwise_cons.mpr ⟨?_, ih hzs⟩
        intro y hy
        rcases (mem_insertStable key x zs y).mp hy with h1 | h1
        · exact h1 ▸ le_of_not_lt hlt
        · exact hz y h1

theorem foldl_insertStable_mem (key : α → Int) (l : List α) :
    ∀ acc y, (y ∈ l.foldl (fun acc x => insertStable key x acc) acc ↔ y ∈ acc ∨ y ∈ l) := by
  induction l with
  | nil => simp
  | cons z zs ih =>
      intro acc y
      simp only [List.foldl_cons]
      rw [ih]
      rw [mem_insertStable]
      simp
      tauto

theorem pySorted_mem (key : α → Int) (l : List α) (y : α) :
    y ∈ pySorted key l ↔ y ∈ l := by
  unfold pySorted
  rw [foldl_insertStable_mem]
  simp

theorem foldl_insertStable_pairwise (key : α → Int) (l : List α) :
    ∀ acc, acc.Pairwise (fun a b => key a ≤ key b) →
      (l.foldl (fun acc x => insertStable key x acc) acc).Pairwise
        (fun a b => key a ≤ key b) := by
  induction l with
  | nil => intro acc h; exact h
  | cons z zs ih =>
      intro acc h
      exact ih _ (pairwise_insertStable key z acc h)

theorem pySorted_pairwise (key : α → Int) (l : List α) :
    (pySorted key l).Pairwise (fun a b => key a ≤ key b) := by
  unfold pySorted
  exact foldl_insertStable_pairwise key l [] (by simp)

theorem mem_list_of_getLast? {α : Type _} {l : List α} {m : α} (h : l.getLast? = some m) :
    m ∈ l := by
  rcases List.mem_getLast?_eq_getLast (Option.mem_def.mpr h) with ⟨hne, he⟩
  exact he ▸ List.getLast_mem hne

theorem getLast?_max (key : α → Int) :
    ∀ l : List α, l.Pairwise (fun a b => key a ≤ key b) →
      ∀ m, l.getLast? = some m → ∀ y ∈ l, key y ≤ key m := by
  intro l
  induction l with
  | nil => intro _ m hm; cases hm
  | cons a as ih =>
      intro h m hm y hy
      rcases List.pairwise_cons.mp h with ⟨ha, has⟩
      cases as with
      | nil =>
          simp at hm
          rcases List.mem_singleton.mp hy with h1
          simp [h1, hm]
      | cons b bs =>
          rw [List.getLast?_cons_cons] at hm
          rcases List.mem_cons.mp hy with h1 | h1
          · subst h1
            exact ha m (mem_list_of_getLast? hm)
          · exact ih has m hm y h1

theorem sortedLast_spec (key : α → Int) (l : List α) (m : α)
    (h : sortedLast key l = some m) : m ∈ l ∧ ∀ y ∈ l, key y ≤ key m := by
  unfold sortedLast at h
  have hmem : m ∈ pySorted key l := mem_list_of_getLast? h
  refine ⟨(pySorted_mem key l m).mp hmem, ?_⟩
  intro y hy
  exact getLast?_max key _ (pySorted_pairwise key l) m h y ((pySorted_mem key l y).mpr hy)

theorem sortedLast_isSome (key : α → Int) (l : List α) (h : l ≠ []) :
    (sortedLast key l).isSome := by
  unfold sortedLast
  rw [List.getLast?_isSome]
  intro he
  rcases List.exists_mem_of_ne_nil l h with ⟨y, hy⟩
  have := (pySorted_mem key l y).mpr hy
  rw [he] at this
  cases this

end NeuroPipeline

namespace NeuroPipeline

/-! ### pickSeries characterization -/

theorem mem_qualifyingOf_iff (d : List (Int × List (String × String))) (k : Int) :
    k ∈ qualifyingOf d ↔ ∃ m, (k, m) ∈ d ∧ hasBvalBvec m = true := by
  unfold qualifyingOf
  constructor
  · intro h
    rcases List.mem_map.mp h with ⟨sm, hsm, he⟩
    rcases List.mem_filter.mp hsm with ⟨hmem, hbb⟩
    refine ⟨sm.2, ?_, hbb⟩
    have : (k, sm.2) = sm := by
      rw [← he]
    rw [this]
    exact hmem
  · rintro ⟨m, hm, hbb⟩
    exact List.mem_map.mpr ⟨(k, m), List.mem_filter.mpr ⟨hm, hbb⟩, rfl⟩

theorem seriesQualifies_iff (d : List (Int × List (String × String)))
    (hnd : (d.map Prod.fst).Nodup) (k : Int) :
    seriesQualifies d k = true ↔ k ∈ qualifyingOf d := by
  unfold seriesQualifies
  cases hk : dictGet? d k with
  | none =>
      constructor
      · intro h; cases h
      · intro h
        rcases (mem_qualifyingOf_iff d k).mp h with ⟨m, hm, _⟩
        rw [dictGet?_of_mem_nodup d hnd k m hm] at hk
        cases hk
  | some m =>
      constructor
      · intro h
        exact (mem_qualifyingOf_iff d k).mpr ⟨m, mem_of_dictGet? d k m hk, h⟩
      · intro h
        rcases (mem_qualifyingOf_iff d k).mp h with ⟨m', hm', hbb⟩
        have h2 := dictGet?_of_mem_nodup d hnd k m' hm'
        rw [hk] at h2
        cases h2
        exact hbb

theorem pickSeries_spec (d : List (Int × List (String × String)))
    (hnd : (d.map Prod.fst).Nodup) :
    (qualifyingOf d = [] → pickSeries d = none) ∧
    ((8 : Int) ∈ qualifyingOf d → pickSeries d = some 8) ∧
    ((8 : Int) ∉ qualifyingOf d → (6 : Int) ∈ qualifyingOf d → pickSeries d = some 6) ∧
    ((8 : Int) ∉ qualifyingOf d → (6 : Int) ∉ qualifyingOf d → qualifyingOf d ≠ [] →
      ∃ s, pickSeries d = some s ∧ s ∈ qualifyingOf d ∧ ∀ x ∈ qualifyingOf d, x ≤ s) ∧
    (∀ s, pickSeries d = some s → s ∈ qualifyingOf d) := by
  have hpred := seriesQualifies_iff d hnd
  have hfalse : ∀ k : Int, k ∉ qualifyingOf d → seriesQualifies d k = false := by
    intro k hk
    rcases Bool.eq_false_or_eq_true (seriesQualifies d k) with h | h
    · exact absurd ((hpred k).mp h) hk
    · exact h
  refine ⟨?_, ?_, ?_, ?_, ?_⟩
  · intro hq
    have h8 : seriesQualifies d 8 = false := hfalse 8 (by rw [hq]; intro h; cases h)
    have h6 : seriesQualifies d 6 = false := hfalse 6 (by rw [hq]; intro h; cases h)
    unfold pickSeries
    rw [List.find?_cons_of_neg _ (by simp [h8]), List.find?_cons_of_neg _ (by simp [h6]),
      List.find?_nil]
    show sortedLast (fun s => s) (qualifyingOf d) = none
    rw [hq]
    rfl
  · intro hq
    unfold pickSeries
    rw [List.find?_cons_of_pos _ (by simp [(hpred 8).mpr hq])]
  · intro h8 hq
    unfold pickSeries
    rw [List.find?_cons_of_neg _ (by simp [hfalse 8 h8]),
      List.find?_cons_of_pos _ (by simp [(hpred 6).mpr hq])]
  · intro h8 h6 hne
    have hsome := sortedLast_isSome (fun s => s) (qualifyingOf d) hne
    rcases Option.isSome_iff_exists.mp hsome with ⟨s, hs⟩
    refine ⟨s, ?_, (sortedLast_spec _ _ _ hs).1, (sortedLast_spec _ _ _ hs).2⟩
    unfold pickSeries
    rw [List.find?_cons_of_neg _ (by simp [hfalse 8 h8]),
      List.find?_cons_of_neg _ (by simp [hfalse 6 h6]), List.find?_nil]
    exact hs
  · intro s hs
    unfold pickSeries at hs
    cases hf : List.find? (seriesQualifies d) [(8 : Int), 6] with
    | some p =>
        have hp := List.find?_some hf
        rw [hf] at hs
        cases hs
        exact (hpred _).mp hp
    | none =>
        rw [hf] at hs
        exact (sortedLast_spec _ _ _ hs).1

end NeuroPipeline

namespace NeuroPipeline

/-- C10: among the diffusion PA series (`sms4_diff_CMR130_PA` nii.gz files,
grouped by trailing series number), exactly one series is selected and all
its files are copied to `sub-{subject}_dir-PA_dwi.{ext}`: series 8 is
preferred when it has both bval and bvec companions, else series 6 under
the same condition, else the largest qualifying series number; when no
series has both companions, no dwi file is planned at all. -/
theorem c10_dwi_series_selection (srcNames basenames : List String)
    (a : NiftiArgs) (subject : String) :
    (qualifyingSeries srcNames basenames = [] →
        pickSeries (dwiPaSeries srcNames basenames) = none ∧
        dwiPlans srcNames a subject basenames = []) ∧
    ((8 : Int) ∈ qualifyingSeries srcNames basenames →
        pickSeries (dwiPaSeries srcNames basenames) = some 8) ∧
    ((8 : Int) ∉ qualifyingSeries srcNames basenames →
      (6 : Int) ∈ qualifyingSeries srcNames basenames →
        pickSeries (dwiPaSeries srcNames basenames) = some 6) ∧
    ((8 : Int) ∉ qualifyingSeries srcNames basenames →
      (6 : Int) ∉ qualifyingSeries srcNames basenames →
      qualifyingSeries srcNames basenames ≠ [] →
        ∃ s, pickSeries (dwiPaSeries srcNames basenames) = some s ∧
          s ∈ qualifyingSeries srcNames basenames ∧
          ∀ x ∈ qualifyingSeries srcNames basenames, x ≤ s) ∧
    (∀ s, pickSeries (dwiPaSeries srcNames basenames) = some s →
        s ∈ qualifyingSeries srcNames basenames ∧
        ∃ m, dictGet? (dwiPaSeries srcNames basenames) s = some m ∧
          dwiPlans srcNames a subject basenames =
            m.map (fun p => (a.srcDir ++ "/" ++ p.2,
              a.outDir ++ "/dwi/sub-" ++ subject ++ "_dir-PA_dwi." ++ p.1))) := by
  have hnd := dwiPaSeries_keys_nodup srcNames basenames
  have hspec := pickSeries_spec (dwiPaSeries srcNames basenames) hnd
  refine ⟨?_, hspec.2.1, hspec.2.2.1, hspec.2.2.2.1, ?_⟩
  · intro hq
    have hpick := hspec.1 hq
    refine ⟨hpick, ?_⟩
    simp only [dwiPlans, hpick]
  · intro s hs
    have hmem : s ∈ qualifyingOf (dwiPaSeries srcNames basenames) := hspec.2.2.2.2 s hs
    refine ⟨hmem, ?_⟩
    rcases (mem_qualifyingOf_iff _ s).mp hmem with ⟨m, hm, _⟩
    have hdict := dictGet?_of_mem_nodup _ hnd s m hm
    refine ⟨m, hdict, ?_⟩
    simp only [dwiPlans, hs, hdict]

/-- Witness for `c10_dwi_series_selection`: on a concrete source directory
where series 6 has both companions and series 8 has none, the picked series
is 6. -/
theorem c10_dwi_series_selection_witness :
    pickSeries (dwiPaSeries
      ["x_sms4_diff_CMR130_PA_6.nii.gz", "x_sms4_diff_CMR130_PA_6.bval",
       "x_sms4_diff_CMR130_PA_6.bvec", "x_sms4_diff_CMR130_PA_8.nii.gz"]
      ["x_sms4_diff_CMR130_PA_6.nii.gz", "x_sms4_diff_CMR130_PA_8.nii.gz"]) = some 6 :=
  (c10_dwi_series_selection
      ["x_sms4_diff_CMR130_PA_6.nii.gz", "x_sms4_diff_CMR130_PA_6.bval",
       "x_sms4_diff_CMR130_PA_6.bvec", "x_sms4_diff_CMR130_PA_8.nii.gz"]
      ["x_sms4_diff_CMR130_PA_6.nii.gz", "x_sms4_diff_CMR130_PA_8.nii.gz"]
      { srcDir := "/s", outDir := "/o" } "S").2.2.1 (by decide) (by decide)

end NeuroPipeline

namespace NeuroPipeline

/-! ### Parser soundness lemmas (C7) -/

theorem stripPref_sound : ∀ p l r : List Char, stripPref p l = some r → l = p ++ r := by
  intro p
  induction p with
  | nil =>
      intro l r h
      simp [stripPref] at h
      simp [h]
  | cons a ps ih =>
      intro l r h
      cases l with
      | nil => simp [stripPref] at h
      | cons c cs =>
          by_cases hac : a = c
          · simp only [stripPref, if_pos hac] at h
            rw [List.cons_append, ← ih cs r h, hac]
          · simp [stripPref, if_neg hac] at h

theorem hasPref_append_self : ∀ n b : List Char, hasPref n (n ++ b) = true := by
  intro n
  induction n with
  | nil => intro b; rfl
  | cons a ps ih => intro b; simp [hasPref, ih]

theorem containsTok_of_decomp : ∀ a n b : List Char, containsTok (a ++ (n ++ b)) n = true := by
  intro a
  induction a with
  | nil =>
      intro n b
      cases hnb : n ++ b with
      | nil =>
          rcases List.append_eq_nil.mp hnb with ⟨hn, _⟩
          simp [containsTok, hn, hasPref]
      | cons c cs =>
          simp only [List.nil_append, hnb, containsTok]
          rw [← hnb, hasPref_append_self]
          simp
  | cons x a' ih =>
      intro n b
      simp only [List.cons_append, containsTok, List.append_eq]
      rw [ih]
      simp

theorem containsTok_append_left (pre m n : List Char) (h : containsTok m n = true) :
    containsTok (pre ++ m) n = true := by
  induction pre with
  | nil => simpa using h
  | cons c cs ih =>
      simp only [List.cons_append, containsTok, List.append_eq]
      rw [ih]
      simp

theorem matchOpt_decomp (key l : List Char) : ∃ pre, l = pre ++ (matchOpt key l).2 := by
  unfold matchOpt
  cases hk : stripPref key l with
  | none => exact ⟨[], rfl⟩
  | some rest =>
      by_cases he : (rest.takeWhile (· ≠ '_')).isEmpty
      · simp only [he, if_pos]
        exact ⟨[], rfl⟩
      · simp only [he, if_neg, Bool.false_eq_true, not_false_eq_true]
        refine ⟨key ++ rest.takeWhile (· ≠ '_'), ?_⟩
        rw [stripPref_sound key l rest hk, List.append_assoc,
          List.takeWhile_append_dropWhile]

theorem firstTok_sound : ∀ ts l t r, firstTok ts l = some (t, r) → t ∈ ts ∧ l = t ++ r := by
  intro ts
  induction ts with
  | nil => intro l t r h; cases h
  | cons t0 ts' ih =>
      intro l t r h
      cases hs : stripPref t0 l with
      | some rest =>
          simp only [firstTok, hs] at h
          cases h
          exact ⟨List.mem_cons_self t0 ts', stripPref_sound t0 l r hs⟩
      | none =>
          simp only [firstTok, hs] at h
          rcases ih l t r h with ⟨hmem, hdec⟩
          exact ⟨List.mem_cons_of_mem t0 hmem, hdec⟩

theorem matchAt_sound (l : List Char) (info : BidsInfo) (h : matchAt l = some info) :
    info.sub.isSome = true ∧ info.ses.isSome = true ∧ info.suffix.isSome = true ∧
    info.extension.isSome = true ∧
    (∃ a, l = "sub-".data ++ a) ∧ (∃ a b, l = a ++ ("_ses-".data ++ b)) ∧
    (∃ t a b, t ∈ suffixToks ∧ l = a ++ (t ++ b)) := by
  unfold matchAt at h
  cases h0 : stripPref "sub-".data l with
  | none => rw [h0] at h; cases h
  | some r0 =>
  rw [h0] at h
  simp only [] at h
  by_cases hsub : (r0.takeWhile (· ≠ '_')).isEmpty
  · rw [if_pos hsub] at h; cases h
  · rw [if_neg hsub] at h
    cases h2 : stripPref "_ses-".data (r0.dropWhile (· ≠ '_')) with
    | none => rw [h2] at h; cases h
    | some r2 =>
    rw [h2] at h
    simp only [] at h
    by_cases hses : (r2.takeWhile (· ≠ '_')).isEmpty
    · rw [if_pos hses] at h; cases h
    · rw [if_neg hses] at h
      cases h3 : firstTok suffixToks
          (matchOpt "_mod-".data
            (matchOpt "_echo-".data
              (matchOpt "_run-".data
                (matchOpt "_dir-".data
                  (matchOpt "_acq-".data
                    (matchOpt "_task-".data (r2.dropWhile (· ≠ '_'))).2).2).2).2).2).2 with
      | none => rw [h3] at h; cases h
      | some tr =>
      rw [h3] at h
      dsimp only [] at h
      cases h4 : matchExt tr.2 with
      | none => rw [h4] at h; cases h
      | some ext =>
      rw [h4] at h
      cases h
      refine ⟨rfl, rfl, rfl, rfl, ?_, ?_, ?_⟩
      · exact ⟨r0, stripPref_sound _ l r0 h0⟩
      · refine ⟨"sub-".data ++ r0.takeWhile (· ≠ '_'), r2, ?_⟩
        rw [stripPref_sound _ l r0 h0, List.append_assoc]
        rw [← stripPref_sound _ _ r2 h2, List.takeWhile_append_dropWhile]
      · rcases firstTok_sound _ _ _ _ h3 with ⟨hmem, hdec⟩
        rcases matchOpt_decomp "_task-".data (r2.dropWhile (· ≠ '_')) with ⟨p1, hp1⟩
        rcases matchOpt_decomp "_acq-".data
          (matchOpt "_task-".data (r2.dropWhile (· ≠ '_'))).2 with ⟨p2, hp2⟩
        rcases matchOpt_decomp "_dir-".data
          (matchOpt "_acq-".data
            (matchOpt "_task-".data (r2.dropWhile (· ≠ '_'))).2).2 with ⟨p3, hp3⟩
        rcases matchOpt_decomp "_run-".data
          (matchOpt "_dir-".data
            (matchOpt "_acq-".data
              (matchOpt "_task-".data (r2.dropWhile (· ≠ '_'))).2).2).2 with ⟨p4, hp4⟩
        rcases matchOpt_decomp "_echo-".data
          (matchOpt "_run-".data
            (matchOpt "_dir-".data
              (matchOpt "_acq-".data
                (matchOpt "_task-".data (r2.dropWhile (· ≠ '_'))).2).2).2).2 with ⟨p5, hp5⟩
        rcases matchOpt_decomp "_mod-".data
          (matchOpt "_echo-".data
            (matchOpt "_run-".data
              (matchOpt "_dir-".data
                (matchOpt "_acq-".data
                  (matchOpt "_task-".data (r2.dropWhile (· ≠ '_'))).2).2).2).2).2 with ⟨p6, hp6⟩
        refine ⟨tr.1,
          "sub-".data ++ r0.takeWhile (· ≠ '_') ++ "_ses-".data ++ r2.takeWhile (· ≠ '_')
            ++ p1 ++ p2 ++ p3 ++ p4 ++ p5 ++ p6, tr.2, hmem, ?_⟩
        rw [stripPref_sound _ l r0 h0]
        conv_lhs => rw [← List.takeWhile_append_dropWhile (p := (· ≠ '_')) (l := r0)]
        rw [stripPref_sound _ _ r2 h2]
        conv_lhs => rw [← List.takeWhile_append_dropWhile (p := (· ≠ '_')) (l := r2)]
        rw [hp1, hp2, hp3, hp4, hp5, hp6, hdec]
        simp [List.append_assoc]

end NeuroPipeline

namespace NeuroPipeline

theorem searchSub_sound : ∀ (l : List Char) (info : BidsInfo), searchSub l = some info →
    info.sub.isSome = true ∧ info.ses.isSome = true ∧ info.suffix.isSome = true ∧
    info.extension.isSome = true ∧
    containsTok l "sub-".data = true ∧ containsTok l "_ses-".data = true ∧
    (∃ t ∈ suffixToks, containsTok l t = true) := by
  intro l
  induction l with
  | nil => intro info h; cases h
  | cons c cs ih =>
      intro info h
      cases hm : matchAt (c :: cs) with
      | some i =>
          rw [searchSub, hm] at h
          cases h
          rcases matchAt_sound _ _ hm with ⟨h1, h2, h3, h4, ⟨a, ha⟩, ⟨a2, b2, hab⟩, ⟨t, a3, b3, hmem, hts⟩⟩
          refine ⟨h1, h2, h3, h4, ?_, ?_, ⟨t, hmem, ?_⟩⟩
          · rw [ha]
            have := containsTok_of_decomp [] "sub-".data a
            simpa using this
          · rw [hab]
            exact containsTok_of_decomp a2 "_ses-".data b2
          · rw [hts]
            exact containsTok_of_decomp a3 t b3
      | none =>
          rw [searchSub, hm] at h
          rcases ih info h with ⟨h1, h2, h3, h4, h5, h6, ⟨t, hmem, ht⟩⟩
          refine ⟨h1, h2, h3, h4, ?_, ?_, ⟨t, hmem, ?_⟩⟩
          · simp [containsTok, h5]
          · simp [containsTok, h6]
          · simp [containsTok, ht]

theorem pyBasename_suffix_decomp (l : List Char) : ∃ pre, l = pre ++ pyBasename l := by
  refine ⟨(l.reverse.dropWhile (· ≠ '/')).reverse, ?_⟩
  unfold pyBasename
  rw [← List.reverse_append, List.takeWhile_append_dropWhile, List.reverse_reverse]

/-- C7: the parser is total and never returns a partial record: whenever
`get_bids_info_from_filename` succeeds, the subject, session, suffix,
extension and modality fields are all present, and the file name contains
the literal `sub-` marker, the `_ses-` marker and one of the recognized
suffix tokens — contrapositively, any name lacking one of these (such as
`random_scan_001.nii`) yields the explicit `none` outcome, which the walkers
turn into a warning and a skip. -/
theorem c7_parser_totality (f : String) (info : BidsInfo)
    (h : get_bids_info_from_filename f = some info) :
    (info.sub.isSome = true ∧ info.ses.isSome = true ∧ info.suffix.isSome = true ∧
     info.extension.isSome = true ∧ info.modality.isSome = true) ∧
    (strContainsSub f "sub-" = true ∧ strContainsSub f "_ses-" = true ∧
     (∃ t ∈ suffixToks, containsTok f.data t = true)) ∧
    get_bids_info_from_filename "random_scan_001.nii" = none := by
  unfold get_bids_info_from_filename at h
  cases hs : searchSub (pyBasename f.data) with
  | none => rw [hs] at h; cases h
  | some info0 =>
      rw [hs] at h
      dsimp only [] at h
      rcases searchSub_sound _ _ hs with ⟨h1, h2, h3, h4, h5, h6, ⟨t, hmem, ht⟩⟩
      rcases pyBasename_suffix_decomp f.data with ⟨pre, hpre⟩
      have hlift : ∀ n, containsTok (pyBasename f.data) n = true →
          containsTok f.data n = true := by
        intro n hn
        rw [hpre]
        exact containsTok_append_left pre _ n hn
      cases hsfx : info0.suffix with
      | none => rw [hsfx] at h3; cases h3
      | some sfx =>
          rw [hsfx] at h
          cases h
          refine ⟨⟨h1, h2, rfl, h4, rfl⟩, ⟨?_, ?_, ⟨t, hmem, hlift t ht⟩⟩, by decide⟩
          · exact hlift _ h5
          · exact hlift _ h6

/-- Witness for `c7_parser_totality` at Scenario A's filename. -/
theorem c7_parser_totality_witness :
    (((get_bids_info_from_filename "sub-01_ses-01_task-rest_run-1_bold.nii").getD
        {}).sub.isSome = true) ∧
    strContainsSub "sub-01_ses-01_task-rest_run-1_bold.nii" "sub-" = true := by
  have h := c7_parser_totality "sub-01_ses-01_task-rest_run-1_bold.nii"
    { sub := some "01", ses := some "01", task := some "rest", run := some "1",
      suffix := some "_bold", extension := some ".nii", modality := some "bold" }
    (by decide)
  exact ⟨by decide, h.2.1.1⟩

end NeuroPipeline

namespace NeuroPipeline

/-! ### Canonical-order round trip (C3) -/

theorem takeWhile_eq_self_of_all {p : Char → Bool} :
    ∀ l : List Char, (∀ c ∈ l, p c = true) → l.takeWhile p = l := by
  intro l
  induction l with
  | nil => intro _; rfl
  | cons c cs ih =>
      intro h
      rw [List.takeWhile_cons, if_pos (h c (List.mem_cons_self c cs))]
      rw [ih (fun x hx => h x (List.mem_cons_of_mem c hx))]

theorem pyBasename_no_slash (l : List Char) (h : ∀ c ∈ l, c ≠ '/') :
    pyBasename l = l := by
  unfold pyBasename
  rw [takeWhile_eq_self_of_all, List.reverse_reverse]
  intro c hc
  rw [List.mem_reverse] at hc
  simpa using h c hc

theorem takeWhile_value (v : List Char) (hv : ∀ c ∈ v, c ≠ '_') :
    ∀ rs : List Char, (v ++ '_' :: rs).takeWhile (· ≠ '_') = v := by
  induction v with
  | nil => intro rs; simp [List.takeWhile_cons]
  | cons c cs ih =>
      intro rs
      rw [List.cons_append, List.takeWhile_cons,
        if_pos (by simpa using hv c (List.mem_cons_self c cs))]
      rw [ih (fun x hx => hv x (List.mem_cons_of_mem c hx))]

theorem dropWhile_value (v : List Char) (hv : ∀ c ∈ v, c ≠ '_') :
    ∀ rs : List Char, (v ++ '_' :: rs).dropWhile (· ≠ '_') = '_' :: rs := by
  induction v with
  | nil => intro rs; simp [List.dropWhile_cons]
  | cons c cs ih =>
      intro rs
      rw [List.cons_append, List.dropWhile_cons,
        if_pos (by simpa using hv c (List.mem_cons_self c cs))]
      exact ih (fun x hx => hv x (List.mem_cons_of_mem c hx)) rs

theorem isEmpty_false_of_ne_nil {v : List Char} (h : v ≠ []) : v.isEmpty = false := by
  cases v with
  | nil => exact absurd rfl h
  | cons c cs => rfl

theorem canonical_no_slash (sub ses t a d r e m : List Char)
    (h1 : goodVal sub) (h2 : goodVal ses) (h3 : goodVal t) (h4 : goodVal a)
    (h5 : goodVal d) (h6 : goodVal r) (h7 : goodVal e) (h8 : goodVal m) :
    ∀ c ∈ canonicalBidsName sub ses t a d r e m, c ≠ '/' := by
  simp only [canonicalBidsName, List.forall_mem_append, and_assoc]
  refine ⟨by decide, fun c hc => (h1.2 c hc).2, by decide, fun c hc => (h2.2 c hc).2,
    by decide, fun c hc => (h3.2 c hc).2, by decide, fun c hc => (h4.2 c hc).2,
    by decide, fun c hc => (h5.2 c hc).2, by decide, fun c hc => (h6.2 c hc).2,
    by decide, fun c hc => (h7.2 c hc).2, by decide, fun c hc => (h8.2 c hc).2, by decide⟩

theorem matchAt_canonical (sub ses t a d r e m : List Char)
    (h1 : goodVal sub) (h2 : goodVal ses) (h3 : goodVal t) (h4 : goodVal a)
    (h5 : goodVal d) (h6 : goodVal r) (h7 : goodVal e) (h8 : goodVal m) :
    matchAt (canonicalBidsName sub ses t a d r e m) =
      some { sub := some sub.asString, ses := some ses.asString, task := some t.asString,
             acq := some a.asString, dir := some d.asString, run := some r.asString,
             echo := some e.asString, mod := some m.asString,
             suffix := some "_bold", extension := some ".nii" } := by
  have u1 := fun c hc => (h1.2 c hc).1
  have u2 := fun c hc => (h2.2 c hc).1
  have u3 := fun c hc => (h3.2 c hc).1
  have u4 := fun c hc => (h4.2 c hc).1
  have u5 := fun c hc => (h5.2 c hc).1
  have u6 := fun c hc => (h6.2 c hc).1
  have u7 := fun c hc => (h7.2 c hc).1
  have u8 := fun c hc => (h8.2 c hc).1
  simp only [canonicalBidsName, List.cons_append, List.nil_append, List.append_assoc]
  simp only [matchAt, matchOpt, firstTok, matchExt, stripPref, if_pos,
    takeWhile_value sub u1, dropWhile_value sub u1,
    takeWhile_value ses u2, dropWhile_value ses u2,
    takeWhile_value t u3, dropWhile_value t u3,
    takeWhile_value a u4, dropWhile_value a u4,
    takeWhile_value d u5, dropWhile_value d u5,
    takeWhile_value r u6, dropWhile_value r u6,
    takeWhile_value e u7, dropWhile_value e u7,
    takeWhile_value m u8, dropWhile_value m u8,
    isEmpty_false_of_ne_nil h1.1, isEmpty_false_of_ne_nil h2.1,
    isEmpty_false_of_ne_nil h3.1, isEmpty_false_of_ne_nil h4.1,
    isEmpty_false_of_ne_nil h5.1, isEmpty_false_of_ne_nil h6.1,
    isEmpty_false_of_ne_nil h7.1, isEmpty_false_of_ne_nil h8.1]
  rfl

end NeuroPipeline

namespace NeuroPipeline

theorem searchSub_of_matchAt (l : List Char) (i : BidsInfo) (h : matchAt l = some i) :
    searchSub l = some i := by
  cases l with
  | nil =>
      rw [(by decide : matchAt [] = (none : Option BidsInfo))] at h
      cases h
  | cons c cs => simp only [searchSub, h]

/-- C3 counterexample: `sub-01_ses-01_task-rest_run-1_bold.nii` parses
successfully, but permuting its `task-` and `run-` tokens gives
`sub-01_ses-01_run-1_task-rest_bold.nii`, which fails to parse entirely
(the regex lists the optional groups in one fixed order), so the permuted
record is not identical to the original. -/
theorem c3_permutation_counterexample :
    (get_bids_info_from_filename "sub-01_ses-01_task-rest_run-1_bold.nii").isSome = true ∧
    get_bids_info_from_filename "sub-01_ses-01_run-1_task-rest_bold.nii" = none := by
  refine ⟨by decide, by decide⟩

/-- C3 amended: the parser recognizes the optional key-value tokens only in
the fixed order task, acq, dir, run, echo, mod.  A filename whose optional
tokens appear in this canonical order parses to exactly the corresponding
record (proved here for all field values made of non-separator characters);
permuting the tokens out of this order is not guaranteed to yield the same
record, and can make the parse fail altogether. -/
theorem c3_canonical_order_roundtrip (sub ses t a d r e m : List Char)
    (h1 : goodVal sub) (h2 : goodVal ses) (h3 : goodVal t) (h4 : goodVal a)
    (h5 : goodVal d) (h6 : goodVal r) (h7 : goodVal e) (h8 : goodVal m) :
    get_bids_info_from_filename (canonicalBidsName sub ses t a d r e m).asString =
      some { sub := some sub.asString, ses := some ses.asString, task := some t.asString,
             acq := some a.asString, dir := some d.asString, run := some r.asString,
             echo := some e.asString, mod := some m.asString,
             suffix := some "_bold", extension := some ".nii",
             modality := some "bold" } := by
  unfold get_bids_info_from_filename
  have hdata : ((canonicalBidsName sub ses t a d r e m).asString).data
      = canonicalBidsName sub ses t a d r e m := rfl
  rw [hdata, pyBasename_no_slash _ (canonical_no_slash sub ses t a d r e m h1 h2 h3 h4 h5 h6 h7 h8),
    searchSub_of_matchAt _ _ (matchAt_canonical sub ses t a d r e m h1 h2 h3 h4 h5 h6 h7 h8)]
  rfl

/-- Witness for `c3_canonical_order_roundtrip` at concrete field values. -/
theorem c3_canonical_order_roundtrip_witness :
    get_bids_info_from_filename
        (canonicalBidsName "01".data "02".data "rest".data "x".data "AP".data
          "1".data "2".data "y".data).asString =
      some { sub := some "01", ses := some "02", task := some "rest",
             acq := some "x", dir := some "AP", run := some "1",
             echo := some "2", mod := some "y",
             suffix := some "_bold", extension := some ".nii",
             modality := some "bold" } :=
  c3_canonical_order_roundtrip "01".data "02".data "rest".data "x".data "AP".data
    "1".data "2".data "y".data (by decide) (by decide) (by decide) (by decide)
    (by decide) (by decide) (by decide) (by decide)

end NeuroPipeline

namespace NeuroPipeline

/-! ### Anat-counter lemmas (C6) -/

theorem processExFile_anatHit (outDir : String) (c : Counters) (s k : String) (it : ExItem)
    (hh : anatHit s k it = true) :
    processExFile outDir c it = .ok (bumpCount c s k, anatDest outDir it k (c s k + 1)) := by
  unfold anatHit at hh
  cases hp : get_bids_info_from_filename it.fileName with
  | none => rw [hp] at hh; cases hh
  | some info =>
      rw [hp] at hh
      dsimp only [] at hh
      rw [Bool.and_eq_true, Bool.and_eq_true, Bool.and_eq_true] at hh
      obtain ⟨⟨⟨hmd, hext⟩, hsubj⟩, hkey⟩ := hh
      rw [decide_eq_true_eq] at hsubj hkey
      rw [Bool.or_eq_true, decide_eq_true_eq, decide_eq_true_eq] at hmd
      rw [Bool.or_eq_true] at hext
      unfold processExFile
      dsimp only []
      rw [hp]
      dsimp only []
      rw [if_neg (by
        intro hcon
        rcases hext with hgz | hnii
        · exact hcon (Or.inr (Or.inl hgz))
        · exact hcon (Or.inl hnii))]
      rw [if_pos hmd]
      rw [if_neg (by
        rcases hext with hgz | hnii
        · rw [if_pos hgz]; decide
        · by_cases hgz : strEndsWith it.fileName ".nii.gz" = true
          · rw [if_pos hgz]; decide
          · rw [if_neg hgz, if_pos hnii]; decide)]
      rw [hsubj, hkey]
      unfold anatDest
      have hnum : bumpCount c s k s k = c s k + 1 := by
        unfold bumpCount
        rw [if_pos rfl, if_pos rfl]
      rw [hnum]
      have hext2 : (if strEndsWith it.fileName ".nii.gz" = true then ".nii.gz"
          else if strEndsWith it.fileName ".nii" = true then ".nii" else ".json") =
          (if strEndsWith it.fileName ".nii.gz" = true then ".nii.gz" else ".nii") := by
        by_cases hgz : strEndsWith it.fileName ".nii.gz" = true
        · rw [if_pos hgz, if_pos hgz]
        · rcases hext with hgz' | hnii
          · exact absurd hgz' hgz
          · rw [if_neg hgz, if_neg hgz, if_pos hnii]
      rw [hext2]
      dsimp only []
      rw [hsubj]

theorem processExFile_counter_of_not_anatHit (outDir : String) (c : Counters) (s k : String)
    (it : ExItem) (hh : anatHit s k it = false) (c' : Counters) (acts : List FsAction)
    (h : processExFile outDir c it = .ok (c', acts)) : c' s k = c s k := by
  unfold processExFile at h
  dsimp only [] at h
  by_cases hft : (strEndsWith it.fileName ".nii" = true ∨
      strEndsWith it.fileName ".nii.gz" = true ∨ strEndsWith it.fileName ".json" = true)
  swap
  · rw [if_pos hft] at h
    cases h
    rfl
  rw [if_neg (not_not_intro hft)] at h
  cases hp : get_bids_info_from_filename it.fileName with
  | none =>
      rw [hp] at h
      cases h
      rfl
  | some info =>
      rw [hp] at h
      dsimp only [] at h
      by_cases hmd : (strLower (info.modality.getD "") = "t1w" ∨
          strLower (info.modality.getD "") = "t2w")
      · rw [if_pos hmd] at h
        by_cases hj : ((if strEndsWith it.fileName ".nii.gz" = true then ".nii.gz"
            else if strEndsWith it.fileName ".nii" = true then ".nii" else ".json") = ".json")
        · rw [if_pos hj] at h
          cases h
          rfl
        · rw [if_neg hj] at h
          cases h
          -- the counter was bumped at (it.subjectId, modKey) ≠ (s, k)
          have hext : strEndsWith it.fileName ".nii.gz" = true ∨
              strEndsWith it.fileName ".nii" = true := by
            by_cases hgz : strEndsWith it.fileName ".nii.gz" = true
            · exact Or.inl hgz
            · by_cases hnii : strEndsWith it.fileName ".nii" = true
              · exact Or.inr hnii
              · exfalso
                rw [if_neg hgz, if_neg hnii] at hj
                exact hj rfl
          have hcond : ¬(it.subjectId = s ∧
              (if strLower (info.modality.getD "") = "t1w" then "T1w" else "T2w") = k) := by
            intro ⟨hs1, hk1⟩
            have : anatHit s k it = true := by
              unfold anatHit
              rw [hp]
              dsimp only []
              rw [Bool.and_eq_true, Bool.and_eq_true, Bool.and_eq_true]
              refine ⟨⟨⟨?_, ?_⟩, ?_⟩, ?_⟩
              · rw [Bool.or_eq_true, decide_eq_true_eq, decide_eq_true_eq]
                exact hmd
              · rw [Bool.or_eq_true]
                exact hext
              · rw [decide_eq_true_eq]
                exact hs1
              · rw [decide_eq_true_eq]
                exact hk1
            rw [this] at hh
            cases hh
          unfold bumpCount
          by_cases hseq : s = it.subjectId
          · rw [if_pos hseq]
            by_cases hkeq : k = (if strLower (info.modality.getD "") = "t1w" then "T1w" else "T2w")
            · exact absurd ⟨hseq.symm, hkeq.symm⟩ hcond
            · rw [if_neg hkeq]
          · rw [if_neg hseq]
      · rw [if_neg hmd] at h
        by_cases hbs : (strLower (info.modality.getD "") = "bold" ∨
            strLower (info.modality.getD "") = "sbref")
        · rw [if_pos hbs] at h
          cases ht : info.task with
          | none => rw [ht] at h; cases h
          | some task =>
              rw [ht] at h
              dsimp only [] at h
              by_cases hr : strLower task ≠ "rest"
              · rw [if_pos hr] at h
                cases h
                rfl
              · rw [if_neg hr] at h
                by_cases hb : strLower (info.modality.getD "") = "bold"
                · rw [if_pos hb] at h
                  cases h
                  rfl
                · rw [if_neg hb] at h
                  cases h
                  rfl
        · rw [if_neg hbs] at h
          by_cases hepi : strLower (info.modality.getD "") = "epi"
          · rw [if_pos hepi] at h
            by_cases hj : ((if strEndsWith it.fileName ".nii.gz" = true then ".nii.gz"
                else if strEndsWith it.fileName ".nii" = true then ".nii" else ".json") = ".json")
            · rw [if_pos hj] at h
              cases h
              rfl
            · rw [if_neg hj] at h
              cases h
              rfl
          · rw [if_neg hepi] at h
            cases h
            rfl

end NeuroPipeline

namespace NeuroPipeline

theorem processItems_anat_general (outDir s k : String) :
    ∀ (es : List ExItem) (c : Counters) (trs : List (List FsAction)),
      processItems outDir c es = .ok trs →
      ((es.zip trs).filter (fun p => anatHit s k p.1)).map Prod.snd =
        expectedAnatTraces outDir k
          (((es.zip trs).filter (fun p => anatHit s k p.1)).map Prod.fst) (c s k + 1) := by
  intro es
  induction es with
  | nil =>
      intro c trs h
      cases h
      rfl
  | cons it rest ih =>
      intro c trs h
      unfold processItems at h
      cases hf : processExFile outDir c it with
      | error e => rw [hf] at h; cases h
      | ok pr =>
          obtain ⟨c', acts⟩ := pr
          rw [hf] at h
          dsimp only [] at h
          cases hrest : processItems outDir c' rest with
          | error e => rw [hrest] at h; cases h
          | ok trs' =>
              rw [hrest] at h
              cases h
              by_cases hhit : anatHit s k it = true
              · have hL1 := processExFile_anatHit outDir c s k it hhit
                rw [hf] at hL1
                injection hL1 with hpair
                injection hpair with hc hacts
                subst hc
                subst hacts
                have hnum : bumpCount c s k s k = c s k + 1 := by
                  unfold bumpCount
                  rw [if_pos rfl, if_pos rfl]
                have htail := ih (bumpCount c s k) trs' hrest
                rw [hnum] at htail
                simp only [List.zip_cons_cons, List.filter_cons, hhit, if_true,
                  List.map_cons, expectedAnatTraces]
                rw [htail]
              · have hfalse : anatHit s k it = false := by
                  rcases Bool.eq_false_or_eq_true (anatHit s k it) with hb | hb
                  · exact absurd hb hhit
                  · exact hb
                have hL2 := processExFile_counter_of_not_anatHit outDir c s k it hfalse
                  c' acts hf
                have htail := ih c' trs' hrest
                rw [hL2] at htail
                simp only [List.zip_cons_cons, List.filter_cons, hfalse,
                  Bool.false_eq_true, if_false]
                exact htail

/-- C6 amended: provided the example converter's run completes without
raising (no bold/sbref file lacking a task entity is encountered), the
anatomical files of each subject and modality are numbered exactly
1, 2, ..., N in processing order — each such file's trace is a mkdir plus a
copy to `{T1w|T2w}_{n}{ext}` with `n` the number of same-subject,
same-modality anat files seen so far — regardless of unrelated files
interleaved between them.  Without that proviso the claim fails: a taskless
bold file interleaved between two T1w files aborts the whole run. -/
theorem c6_anat_numbering (outDir s k : String) (es : List ExItem)
    (trs : List (List FsAction)) (h : processItems outDir initCounters es = .ok trs) :
    ((es.zip trs).filter (fun p => anatHit s k p.1)).map Prod.snd =
      expectedAnatTraces outDir k
        (((es.zip trs).filter (fun p => anatHit s k p.1)).map Prod.fst) 1 :=
  processItems_anat_general outDir s k es initCounters trs h

/-- Witness for `c6_anat_numbering` on Scenario D: the two T1w files are
numbered 1 and 2. -/
theorem c6_anat_numbering_witness :
    ((scenarioDItems.zip scenarioDTrace).filter
        (fun p => anatHit "01" "T1w" p.1)).map Prod.snd =
      expectedAnatTraces "/out" "T1w"
        (((scenarioDItems.zip scenarioDTrace).filter
            (fun p => anatHit "01" "T1w" p.1)).map Prod.fst) 1 :=
  c6_anat_numbering "/out" "01" "T1w" scenarioDItems scenarioDTrace (by decide)

/-- C6 counterexample: the claim's "regardless of unrelated files
interleaved between them" fails on the code: with two T1w files separated
by a bold file that has no task entity, the run aborts with an uncaught
AttributeError, so the second T1w file is never assigned a number at all
(the stream does contain two anatomical T1w hits for the subject). -/
theorem c6_interleaved_crash :
    processItems "/out" initCounters interleavedCrashItems =
      .error "AttributeError: NoneType has no attribute lower" ∧
    (interleavedCrashItems.filter (fun it => anatHit "01" "T1w" it)).length = 2 := by
  refine ⟨by decide, by decide⟩

end NeuroPipeline
